import Mathlib

/-!
Linyx virtual file system (src/vfs.cpp)

A shallow embedding of the class VirtualFileSystem: the in-memory snapshot
vfs_data_ (a std::map from user name to a std::map from attribute name to
value), the FUSE callbacks getattr, readdir, read, mkdir and rmdir, and the
rebuild sync_with_passwd.

Conventions of the embedding
* A byte is represented by the character with that code point; a std::string
  and the contents of a C string are lists of bytes.  A C string ends at its
  first NUL byte, see c_str.
* A std::map is an association list kept in ascending key order.  The
  functions below do not require the order, the predicate StdMap.WF states it
  and the operations are shown to keep it.
* A callback that uses operator[] on the snapshot, or changes it, returns the
  snapshot it leaves behind; readdir only reads it.
* What the environment decides is an argument: the exit statuses returned by
  std::system, the lines std::getline reads from /etc/passwd, the clock and
  the process ids.
* An exception that leaves a function is the error case of Except.
-/

namespace VirtualFileSystem

/-! ## Strings -/

/-- Bytes of a std::string, or of a C string up to its terminator. -/
abbrev Str := List Char

/-- The terminating byte of a C string. -/
def NUL : Char := Char.ofNat 0

/-- What a const char pointer to these bytes denotes: the bytes before the first NUL. -/
def c_str (s : Str) : Str := s.takeWhile (fun c => decide (c ≠ NUL))

/-- Ordering of std::string keys (std::less, i.e. basic_string::compare below zero):
lexicographic on byte values, a proper initial segment comes first. -/
def str_less : Str → Str → Bool
  | [], [] => false
  | [], _ :: _ => true
  | _ :: _, [] => false
  | a :: as, b :: bs => if a < b then true else if b < a then false else str_less as bs

/-! ## std::map -/

/-- A std::map with std::string keys: association list, ascending keys when well formed. -/
abbrev StdMap (V : Type) := List (Str × V)

namespace StdMap

variable {V : Type}

/-- Lookup of a key (std::map::find). -/
def find? : StdMap V → Str → Option V
  | [], _ => none
  | (k', v) :: rest, k => if k' = k then some v else find? rest k

/-- std::map::count: 1 when the key is present, else 0. -/
def count (m : StdMap V) (k : Str) : Nat := if (find? m k).isSome then 1 else 0

/-- Store v under k at its place in key order, replacing the value of an equal key. -/
def insert_or_assign : StdMap V → Str → V → StdMap V
  | [], k, v => [(k, v)]
  | (k', v') :: rest, k, v =>
    if str_less k k' then (k, v) :: (k', v') :: rest
    else if str_less k' k then (k', v') :: insert_or_assign rest k v
    else (k, v) :: rest

/-- The operator[] of std::map: the value under k, which is first created as dflt
(the value-initialised V) when k is missing.  Returns the value and the map afterwards. -/
def subscript (m : StdMap V) (k : Str) (dflt : V) : V × StdMap V :=
  match find? m k with
  | some v => (v, m)
  | none => (dflt, insert_or_assign m k dflt)

/-- std::map::erase by key. -/
def erase (m : StdMap V) (k : Str) : StdMap V := m.filter (fun e => decide (e.1 ≠ k))

/-- Keys in iteration order. -/
def keys (m : StdMap V) : List Str := m.map Prod.fst

/-- std::map::size. -/
def size (m : StdMap V) : Nat := m.length

/-- Class invariant of std::map: keys strictly ascending. -/
def WF (m : StdMap V) : Prop := (keys m).Pairwise (fun a b => str_less a b = true)

instance (m : StdMap V) : Decidable (WF m) := by
  unfold WF; infer_instance

end StdMap

/-- Attribute map of one account: std::map from std::string to std::string. -/
abbrev Attrs := StdMap Str

/-- The member vfs_data_. -/
abbrev Snapshot := StdMap Attrs

/-- The expression vfs_data_[username][filename] used as a value: both subscripts create
what is missing (an empty attribute map, an empty string). -/
def subscript2 (vfs_data : Snapshot) (username filename : Str) : Str × Snapshot :=
  match StdMap.find? vfs_data username with
  | none => ([], StdMap.insert_or_assign vfs_data username [(filename, [])])
  | some inner =>
    match StdMap.find? inner filename with
    | some v => (v, vfs_data)
    | none => ([], StdMap.insert_or_assign vfs_data username
                (StdMap.insert_or_assign inner filename []))

/-- The statement vfs_data_[username][filename] = value. -/
def assign2 (vfs_data : Snapshot) (username filename value : Str) : Snapshot :=
  match StdMap.find? vfs_data username with
  | none => StdMap.insert_or_assign vfs_data username [(filename, value)]
  | some inner =>
    StdMap.insert_or_assign vfs_data username (StdMap.insert_or_assign inner filename value)

/-! ## sscanf with the two formats of the source -/

/-- Return value of sscanf when the input ends before the first conversion. -/
def EOF : Int := -1

/-- The conversion %255[^/]: the longest run of at most 255 bytes other than the slash at
the head of the input.  It fails on an empty run.  Returns the run and the unread input. -/
def scanset255 (inp : Str) : Option (Str × Str) :=
  let run := (inp.takeWhile (fun c => decide (c ≠ '/'))).take 255
  if run = [] then none else some (run, inp.drop run.length)

/-- sscanf(path, "/%255[^/]", username): the number of assigned items (or EOF) and the
buffer username, which is meaningful only when the number is 1. -/
def sscanf_user (path : Str) : Int × Str :=
  match path with
  | [] => (EOF, [])
  | c :: inp =>
    if c ≠ '/' then (0, [])
    else if inp = [] then (EOF, [])
    else match scanset255 inp with
      | none => (0, [])
      | some (username, _) => (1, username)

/-- sscanf(path, "/%255[^/]/%255[^/]", username, filename): the number of assigned items
(or EOF) and the two buffers; filename is meaningful only when the number is 2.  Input
left after the second run is not looked at. -/
def sscanf_user_file (path : Str) : Int × Str × Str :=
  match path with
  | [] => (EOF, [], [])
  | c :: inp =>
    if c ≠ '/' then (0, [], [])
    else if inp = [] then (EOF, [], [])
    else match scanset255 inp with
      | none => (0, [], [])
      | some (username, rest) =>
        match rest with
        | [] => (1, username, [])
        | d :: rest2 =>
          if d ≠ '/' then (1, username, [])
          else match scanset255 rest2 with
            | none => (1, username, [])
            | some (filename, _) => (2, username, filename)

/-! ## errno values, file modes, integer conversions -/

def EPERM : Int := 1
def ENOENT : Int := 2
def EIO : Int := 5
def EEXIST : Int := 17

def S_IFMT : Nat := 0o170000
def S_IFDIR : Nat := 0o040000
def S_IFREG : Nat := 0o100000

/-- Conversion static_cast to int of a std::size_t: the value modulo 2^32 read as a signed
32 bit integer. -/
def static_cast_int (n : Nat) : Int :=
  let r : Nat := n % 2 ^ 32
  if r < 2 ^ 31 then (r : Int) else (r : Int) - 2 ^ 32

/-- Conversion static_cast to std::size_t of an off_t: the value modulo 2^64. -/
def static_cast_size_t (off : Int) : Nat := (off % 2 ^ 64).toNat

/-! ## The record source: std::getline and std::stoi -/

/-- Repeated std::getline(stream, field, delim) until it fails, on a stream holding inp.
The argument cur is the part of the current field already extracted.  A field ends at the
delimiter, which is consumed; at the end of the stream a call that extracted nothing fails,
so an empty last field is not produced. -/
def getline_loop (delim : Char) (cur : Str) : Str → List Str
  | [] => if cur = [] then [] else [cur]
  | c :: rest =>
    if c = delim then cur :: getline_loop delim [] rest
    else getline_loop delim (cur ++ [c]) rest

/-- The fields vector built from one line by the inner loop of sync_with_passwd. -/
def split_fields (line : Str) : List Str := getline_loop ':' [] line

/-- Exceptions of std::stoi. -/
inductive Exn where
  | invalid_argument
  | out_of_range
deriving DecidableEq, Repr

/-- The classification isspace in the C locale. -/
def isspace (c : Char) : Bool := decide (c = ' ' ∨ (9 ≤ c.toNat ∧ c.toNat ≤ 13))

/-- The classification isdigit. -/
def isdigit (c : Char) : Bool := decide ('0' ≤ c ∧ c ≤ '9')

/-- Value of a run of decimal digits, most significant first, continuing from acc. -/
def digits_value (acc : Nat) : Str → Nat
  | [] => acc
  | c :: rest => digits_value (10 * acc + (c.toNat - '0'.toNat)) rest

/-- std::stoi(str) in base 10: leading white space is skipped, one sign is accepted, the
longest run of digits is converted and what follows is ignored.  Without a digit it throws
invalid_argument, with a value outside the range of int it throws out_of_range. -/
def stoi (str : Str) : Except Exn Int :=
  let s1 := str.dropWhile isspace
  let (neg, s2) : Bool × Str :=
    match s1 with
    | c :: rest => if c = '-' then (true, rest) else if c = '+' then (false, rest) else (false, s1)
    | [] => (false, s1)
  let ds := s2.takeWhile isdigit
  if ds = [] then Except.error Exn.invalid_argument
  else
    let v : Int := digits_value 0 ds
    let n : Int := if neg then -v else v
    if n < -(2 ^ 31) ∨ 2 ^ 31 - 1 < n then Except.error Exn.out_of_range
    else Except.ok n

/-- Body of the outer loop of sync_with_passwd for one line. -/
def sync_line (vfs_data : Snapshot) (line : Str) : Except Exn Snapshot :=
  match split_fields line with
  | username :: _ :: uid :: _ :: _ :: home :: shell :: _ =>
    match stoi uid with
    | Except.error e => Except.error e
    | Except.ok uid_num =>
      if uid_num = 0 ∨ uid_num ≥ 1000 then
        if shell ≠ "/bin/false".toList ∧ shell ≠ "/usr/sbin/nologin".toList then
          let d1 := assign2 vfs_data username "id".toList uid
          let d2 := assign2 d1 username "home".toList home
          let d3 := assign2 d2 username "shell".toList shell
          Except.ok d3
        else Except.ok vfs_data
      else Except.ok vfs_data
  | _ => Except.ok vfs_data

/-- The outer loop of sync_with_passwd over the lines read by std::getline. -/
def sync_lines (vfs_data : Snapshot) : List Str → Except Exn Snapshot
  | [] => Except.ok vfs_data
  | line :: rest =>
    match sync_line vfs_data line with
    | Except.error e => Except.error e
    | Except.ok d => sync_lines d rest

/-- The member sync_with_passwd.  The argument passwd_file is none when /etc/passwd cannot
be opened, else the lines that std::getline reads from it.  The snapshot is cleared
first; an exception of std::stoi is not caught. -/
def sync_with_passwd (_vfs_data : Snapshot) (passwd_file : Option (List Str)) :
    Except Exn Snapshot :=
  let cleared : Snapshot := []
  match passwd_file with
  | none => Except.ok cleared
  | some lines => sync_lines cleared lines

/-! ## The callbacks -/

/-- The fields of struct stat that getattr writes; the memset leaves the others zero. -/
structure Stat where
  st_mode : Nat
  st_uid : Nat
  st_gid : Nat
  st_size : Nat
  st_atime : Int
  st_mtime : Int
  st_ctime : Int
deriving DecidableEq, Repr

/-- Values read from the process environment by getattr. -/
structure Env where
  now : Int
  uid : Nat
  gid : Nat

/-- The stat buffer after the memset and the three time stamps. -/
def stat_init (env : Env) : Stat :=
  ⟨0, 0, 0, 0, env.now, env.now, env.now⟩

/-- The member getattr: return value, stat buffer, snapshot afterwards. -/
def getattr (env : Env) (vfs_data : Snapshot) (path0 : Str) : Int × Stat × Snapshot :=
  let path := c_str path0
  let st := stat_init env
  if path = "/".toList then
    (0, { st with st_mode := S_IFDIR ||| 0o755, st_uid := env.uid, st_gid := env.gid }, vfs_data)
  else
    match sscanf_user_file path with
    | (n2, username, filename) =>
      if n2 = 2 then
        if StdMap.count vfs_data username ≠ 0 ∧
            (filename = "id".toList ∨ filename = "home".toList ∨ filename = "shell".toList) then
          match subscript2 vfs_data username filename with
          | (content, d) =>
            (0, { st with st_mode := S_IFREG ||| 0o644, st_uid := env.uid, st_gid := env.gid,
                          st_size := content.length }, d)
        else (-ENOENT, st, vfs_data)
      else
        match sscanf_user path with
        | (n1, username1) =>
          if n1 = 1 then
            if StdMap.count vfs_data username1 ≠ 0 then
              (0, { st with st_mode := S_IFDIR ||| 0o755, st_uid := env.uid,
                            st_gid := env.gid }, vfs_data)
            else (-ENOENT, st, vfs_data)
          else (-ENOENT, st, vfs_data)

/-- The member readdir: return value and the names handed to filler, in order.  A name is
handed over as a C string.  The user name of a path other than the root is what follows
its first byte (FUSE passes paths that begin with a slash). -/
def readdir (vfs_data : Snapshot) (path0 : Str) : Int × List Str :=
  let path := c_str path0
  let buf : List Str := [".".toList, "..".toList]
  if path = "/".toList then
    (0, buf ++ vfs_data.map (fun entry => c_str entry.1))
  else
    let username := path.drop 1
    if StdMap.count vfs_data username ≠ 0 then
      (0, buf ++ ["id".toList, "home".toList, "shell".toList])
    else (-ENOENT, buf)

/-- The member read: return value, the bytes copied into buf, snapshot afterwards. -/
def read (vfs_data : Snapshot) (path0 : Str) (size : Nat) (offset : Int) :
    Int × Str × Snapshot :=
  let path := c_str path0
  match sscanf_user_file path with
  | (n, username, filename) =>
    if n ≠ 2 then (-ENOENT, [], vfs_data)
    else if StdMap.count vfs_data username = 0 then (-ENOENT, [], vfs_data)
    else
      match StdMap.subscript vfs_data username [] with
      | (inner, d1) =>
        if StdMap.count inner filename = 0 then (-ENOENT, [], d1)
        else
          match subscript2 d1 username filename with
          | (content, d2) =>
            let off := static_cast_size_t offset
            if off ≥ content.length then (0, [], d2)
            else
              let length := min size (content.length - off)
              (static_cast_int length, (content.drop off).take length, d2)

/-- Command line of the primary creation tool. -/
def useradd_command (username : Str) : Str :=
  "useradd -m -s /bin/bash ".toList ++ username ++ " 2>/dev/null".toList

/-- Command line of the fallback creation tool. -/
def adduser_command (username : Str) : Str :=
  "adduser --disabled-password --gecos '' ".toList ++ username ++ " 2>/dev/null".toList

/-- Command line of the removal tool. -/
def userdel_command (username : Str) : Str :=
  "userdel -r ".toList ++ username ++ " 2>/dev/null".toList

/-- The member mkdir.  The arguments useradd_status and adduser_status are what std::system
returns for the two commands if they are run, passwd_file is what a rebuild reads.
Returns the outcome (return value and snapshot afterwards, or the exception that escapes
from the rebuild) and the commands run, in order. -/
def mkdir (vfs_data : Snapshot) (path0 : Str) (useradd_status adduser_status : Int)
    (passwd_file : Option (List Str)) : Except Exn (Int × Snapshot) × List Str :=
  let path := c_str path0
  match sscanf_user path with
  | (n, username) =>
    if n = 1 then
      if StdMap.count vfs_data username ≠ 0 then (Except.ok (-EEXIST, vfs_data), [])
      else
        let run : Int × List Str :=
          if useradd_status ≠ 0 then
            (adduser_status, [useradd_command username, adduser_command username])
          else (useradd_status, [useradd_command username])
        if run.1 = 0 then
          match sync_with_passwd vfs_data passwd_file with
          | Except.error e => (Except.error e, run.2)
          | Except.ok d => (Except.ok (0, d), run.2)
        else (Except.ok (- EIO, vfs_data), run.2)
    else (Except.ok (0, vfs_data), [])

/-- The member rmdir.  The argument userdel_status is what std::system returns for the
command if it is run.  Returns the return value, the snapshot afterwards and the commands
run. -/
def rmdir (vfs_data : Snapshot) (path0 : Str) (userdel_status : Int) :
    Int × Snapshot × List Str :=
  let path := c_str path0
  match sscanf_user path with
  | (n, username) =>
    if n = 1 then
      if '/' ∉ path.drop 1 then
        if StdMap.count vfs_data username = 0 then (-ENOENT, vfs_data, [])
        else if userdel_status = 0 then
          (0, StdMap.erase vfs_data username, [userdel_command username])
        else (- EIO, vfs_data, [userdel_command username])
      else (-EPERM, vfs_data, [])
    else (-EPERM, vfs_data, [])

/-! ## Path segments -/

/-- A user name that one path component can carry through the sscanf formats: not empty,
at most 255 bytes, no slash and no NUL. -/
def valid_segment (u : Str) : Prop :=
  u ≠ [] ∧ u.length ≤ 255 ∧ '/' ∉ u ∧ NUL ∉ u

instance (u : Str) : Decidable (valid_segment u) := by
  unfold valid_segment; infer_instance

/-! ## Account records -/

/-- The four fields the rebuild uses from a line. -/
structure Record where
  username : Str
  uid : Str
  home : Str
  shell : Str
deriving DecidableEq, Repr

/-- The record of a line: fields 0, 2, 5 and 6 of a fields vector of size at least 7. -/
def parse_record (line : Str) : Option Record :=
  match split_fields line with
  | username :: _ :: uid :: _ :: _ :: home :: shell :: _ => some ⟨username, uid, home, shell⟩
  | _ => none

/-- The inclusion test of sync_with_passwd on a record whose uid std::stoi converts: the
number is 0 or at least 1000 and the shell is neither /bin/false nor /usr/sbin/nologin. -/
def included (r : Record) : Bool :=
  match stoi r.uid with
  | Except.ok uid_num =>
    decide ((uid_num = 0 ∨ uid_num ≥ 1000) ∧
      r.shell ≠ "/bin/false".toList ∧ r.shell ≠ "/usr/sbin/nologin".toList)
  | Except.error _ => false

/-- The attribute map stored for a record, in key order. -/
def record_attrs (r : Record) : Attrs :=
  [("home".toList, r.home), ("id".toList, r.uid), ("shell".toList, r.shell)]

/-- Every account of the snapshot has exactly the attributes home, id and shell. -/
def three_attrs (vfs_data : Snapshot) : Prop :=
  ∀ e ∈ vfs_data, StdMap.keys e.2 = ["home".toList, "id".toList, "shell".toList]

instance (vfs_data : Snapshot) : Decidable (three_attrs vfs_data) := by
  unfold three_attrs; infer_instance

/-- Effect of one line on the snapshot when std::stoi does not throw: the record of the
line, if it has one that passes the inclusion test, is stored under its user name. -/
def sync_step (vfs_data : Snapshot) (line : Str) : Snapshot :=
  match parse_record line with
  | some r =>
    if included r then StdMap.insert_or_assign vfs_data r.username (record_attrs r)
    else vfs_data
  | none => vfs_data

/-- The records of the lines that have one, in the order of the lines. -/
def parsed_records (lines : List Str) : List Record := lines.filterMap parse_record

/-- The most recent record of the user name u: the last one in the order of the lines. -/
def last_record (lines : List Str) (u : Str) : Option Record :=
  (parsed_records lines).reverse.find? (fun r => decide (r.username = u))

/-- The most recent record of the user name u that passes the inclusion test. -/
def last_included (lines : List Str) (u : Str) : Option Record :=
  (parsed_records lines).reverse.find? (fun r => included r && decide (r.username = u))

/-! ## Reachable snapshots -/

/-- The snapshots the driver can hold: the empty map of the constructor, and what a call
of sync_with_passwd, getattr, readdir, read, mkdir or rmdir leaves behind when it returns,
for any path, any contents of the record source and any exit status of the tools.  A call
from which an exception of std::stoi escapes ends the process and leaves no snapshot. -/
inductive Reachable : Snapshot → Prop where
  | init : Reachable []
  | step_rebuild (s s' : Snapshot) (passwd_file : Option (List Str)) :
      Reachable s → sync_with_passwd s passwd_file = Except.ok s' → Reachable s'
  | step_getattr (s : Snapshot) (env : Env) (path : Str) :
      Reachable s → Reachable (getattr env s path).2.2
  | step_readdir (s : Snapshot) (path : Str) (ret : Int) (names : List Str) :
      Reachable s → readdir s path = (ret, names) → Reachable s
  | step_read (s : Snapshot) (path : Str) (size : Nat) (offset : Int) :
      Reachable s → Reachable (read s path size offset).2.2
  | step_mkdir (s s' : Snapshot) (path : Str) (useradd_status adduser_status : Int)
      (passwd_file : Option (List Str)) (ret : Int) :
      Reachable s →
      (mkdir s path useradd_status adduser_status passwd_file).1 = Except.ok (ret, s') →
      Reachable s'
  | step_rmdir (s : Snapshot) (path : Str) (userdel_status : Int) :
      Reachable s → Reachable (rmdir s path userdel_status).2.1

/-! ## Lemmas on strings and path scanning -/


theorem c_str_eq_self {s : Str} (h : NUL ∉ s) : c_str s = s := by
  unfold c_str
  rw [List.takeWhile_eq_self_iff]
  intro c hc
  have : c ≠ NUL := fun e => h (e ▸ hc)
  simpa using this

theorem takeWhile_append_stop (p : Char → Bool) (u rest : Str) (hu : ∀ c ∈ u, p c = true)
    (hrest : ∀ d ∈ rest.head?, p d = false) : (u ++ rest).takeWhile p = u := by
  induction u with
  | nil =>
    cases rest with
    | nil => rfl
    | cons d r =>
      have := hrest d (by simp)
      simp [List.takeWhile, this]
  | cons c u ih =>
    have hc := hu c (by simp)
    have ih2 := ih (fun c hc => hu c (by simp [hc]))
    simp [List.takeWhile, hc, ih2]

theorem scanset255_segment {u : Str} (rest : Str) (hne : u ≠ []) (hlen : u.length ≤ 255)
    (hslash : '/' ∉ u) (hrest : ∀ d ∈ rest.head?, d = '/') :
    scanset255 (u ++ rest) = some (u, rest) := by
  unfold scanset255
  have h1 : (u ++ rest).takeWhile (fun c => decide (c ≠ '/')) = u := by
    apply takeWhile_append_stop
    · intro c hc
      have : c ≠ '/' := fun e => hslash (e ▸ hc)
      simpa using this
    · intro d hd
      simpa using hrest d hd
  simp only [h1, List.take_of_length_le hlen, if_neg hne, List.drop_left]

theorem sscanf_user_segment {u : Str} (hu : valid_segment u) :
    sscanf_user ('/' :: u) = (1, u) := by
  obtain ⟨hne, hlen, hslash, _⟩ := hu
  have h := scanset255_segment [] hne hlen hslash (by simp)
  simp only [List.append_nil] at h
  simp [sscanf_user, hne, h]

theorem sscanf_user_file_segment {u : Str} (hu : valid_segment u) :
    sscanf_user_file ('/' :: u) = (1, u, []) := by
  obtain ⟨hne, hlen, hslash, _⟩ := hu
  have h := scanset255_segment [] hne hlen hslash (by simp)
  simp only [List.append_nil] at h
  simp [sscanf_user_file, hne, h]

theorem sscanf_user_file_two {u a : Str} (hu : valid_segment u) (ha : valid_segment a) :
    sscanf_user_file ('/' :: (u ++ '/' :: a)) = (2, u, a) := by
  obtain ⟨hne, hlen, hslash, _⟩ := hu
  obtain ⟨hne', hlen', hslash', _⟩ := ha
  have h := scanset255_segment ('/' :: a) hne hlen hslash (by simp)
  have h' := scanset255_segment [] hne' hlen' hslash' (by simp)
  simp only [List.append_nil] at h'
  simp [sscanf_user_file, hne, h, h']

theorem count_of_find {V : Type} {m : StdMap V} {k : Str} {v : V}
    (h : StdMap.find? m k = some v) : StdMap.count m k = 1 := by
  simp [StdMap.count, h]

theorem count_of_find_none {V : Type} {m : StdMap V} {k : Str}
    (h : StdMap.find? m k = none) : StdMap.count m k = 0 := by
  simp [StdMap.count, h]

theorem find_cons {V : Type} (k' : Str) (v : V) (rest : StdMap V) (k : Str) :
    StdMap.find? ((k', v) :: rest) k = if k' = k then some v else StdMap.find? rest k := rfl

theorem keys_cons {V : Type} (e : Str × V) (rest : StdMap V) :
    StdMap.keys (e :: rest) = e.1 :: StdMap.keys rest := rfl

theorem find_isSome_iff_mem_keys {V : Type} (m : StdMap V) (k : Str) :
    (StdMap.find? m k).isSome = true ↔ k ∈ StdMap.keys m := by
  induction m with
  | nil => constructor <;> intro h <;> cases h
  | cons e rest ih =>
    obtain ⟨k', v⟩ := e
    rw [find_cons, keys_cons, List.mem_cons]
    by_cases hk : k' = k
    · rw [if_pos hk]
      exact ⟨fun _ => Or.inl hk.symm, fun _ => rfl⟩
    · rw [if_neg hk, ih]
      exact ⟨Or.inr, fun h => h.resolve_left (fun e => hk e.symm)⟩

theorem count_eq_one_iff {V : Type} (m : StdMap V) (k : Str) :
    StdMap.count m k = 1 ↔ k ∈ StdMap.keys m := by
  rw [← find_isSome_iff_mem_keys]
  unfold StdMap.count
  split <;> simp_all

theorem count_eq_zero_iff {V : Type} (m : StdMap V) (k : Str) :
    StdMap.count m k = 0 ↔ k ∉ StdMap.keys m := by
  rw [← find_isSome_iff_mem_keys]
  unfold StdMap.count
  split <;> simp_all

theorem valid_segment_attr {a : Str}
    (ha : a = "id".toList ∨ a = "home".toList ∨ a = "shell".toList) : valid_segment a := by
  rcases ha with h | h | h <;> subst h <;> decide

theorem static_cast_size_t_of_nat (n : Nat) (h : n < 2 ^ 63) :
    static_cast_size_t (n : Int) = n := by
  unfold static_cast_size_t
  have h2 : ((n : Int) % 2 ^ 64) = (n : Int) := by
    apply Int.emod_eq_of_lt <;> omega
  rw [h2]; simp

theorem static_cast_int_of_lt (n : Nat) (h : n < 2 ^ 31) : static_cast_int n = (n : Int) := by
  unfold static_cast_int
  have h2 : n % 2 ^ 32 = n := Nat.mod_eq_of_lt (by omega)
  simp only [h2, if_pos h]

theorem c_str_path_one {u : Str} (hu : valid_segment u) : c_str ('/' :: u) = '/' :: u := by
  apply c_str_eq_self
  have h := hu.2.2.2
  simp only [List.mem_cons, not_or]
  exact ⟨by decide, h⟩

theorem c_str_path_two {u a : Str} (hu : valid_segment u) (ha : valid_segment a) :
    c_str ('/' :: (u ++ '/' :: a)) = '/' :: (u ++ '/' :: a) := by
  apply c_str_eq_self
  have h := hu.2.2.2
  have h' := ha.2.2.2
  simp only [List.mem_cons, List.mem_append, not_or]
  exact ⟨by decide, h, by decide, h'⟩

/-- C1 (amended): for a user name u that is a valid path segment and present in the snapshot,
an attribute a among id, home, shell with stored content C, an offset in the non-negative
range of off_t and any size, read of the path /u/a copies exactly the bytes of C from offset
on, at most size of them and none when offset is at or past the end, leaves the snapshot
as it was and returns the number of bytes copied converted to int; that return value is
the count itself, hence no error and at most size, whenever the count is below 2^31. -/
theorem read_account_file (vfs_data : Snapshot) (u a C : Str) (attrs : Attrs)
    (size offset : Nat)
    (hu : valid_segment u) (hpresent : StdMap.find? vfs_data u = some attrs)
    (ha : a = "id".toList ∨ a = "home".toList ∨ a = "shell".toList)
    (hC : StdMap.find? attrs a = some C) (hoff : offset < 2 ^ 63) :
    ∃ bytes : Str,
      read vfs_data ("/".toList ++ u ++ "/".toList ++ a) size (offset : Int)
        = (static_cast_int bytes.length, bytes, vfs_data)
      ∧ bytes = (C.drop offset).take (min size (C.length - offset))
      ∧ (C.length ≤ offset → bytes = [])
      ∧ bytes.length ≤ size
      ∧ (bytes.length < 2 ^ 31 → static_cast_int bytes.length = (bytes.length : Int)) := by
  have hva := valid_segment_attr ha
  refine ⟨(C.drop offset).take (min size (C.length - offset)), ?_, rfl, ?_, ?_, ?_⟩
  · have hp : ("/".toList ++ u ++ "/".toList ++ a) = '/' :: (u ++ '/' :: a) := by
      simp
    rw [hp]
    unfold read
    simp only [c_str_path_two hu hva, sscanf_user_file_two hu hva, count_of_find hpresent,
      StdMap.subscript, hpresent, count_of_find hC, subscript2, hC,
      static_cast_size_t_of_nat offset hoff]
    by_cases hlt : offset ≥ C.length
    · have : C.length - offset = 0 := by omega
      simp [hlt, this, static_cast_int]
    · have h1 : min size (C.length - offset) ≤ (C.drop offset).length := by
        simp
      simp [hlt, List.length_take, min_eq_left h1]
  · intro h
    have : C.length - offset = 0 := by omega
    simp [this]
  · simp [List.length_take]
  · intro h
    exact static_cast_int_of_lt _ h

/-- Witness of read_account_file: reading two bytes at offset 1 of /root/home. -/
theorem read_account_file_witness :
    ∃ bytes : Str,
      read [("root".toList, [("home".toList, "/root".toList), ("id".toList, "0".toList),
              ("shell".toList, "/bin/bash".toList)])]
          ("/".toList ++ "root".toList ++ "/".toList ++ "home".toList) 2 ((1 : Nat) : Int)
        = (static_cast_int bytes.length, bytes,
            [("root".toList, [("home".toList, "/root".toList), ("id".toList, "0".toList),
              ("shell".toList, "/bin/bash".toList)])])
      ∧ bytes = ("/root".toList.drop 1).take (min 2 ("/root".toList.length - 1))
      ∧ ("/root".toList.length ≤ 1 → bytes = [])
      ∧ bytes.length ≤ 2
      ∧ (bytes.length < 2 ^ 31 → static_cast_int bytes.length = (bytes.length : Int)) :=
  read_account_file _ "root".toList "home".toList "/root".toList _ 2 1
    (by decide) rfl (by decide) rfl (by decide)

/-! ## The key order and std::map operations -/

theorem str_less_irrefl (a : Str) : str_less a a = false := by
  induction a with
  | nil => rfl
  | cons c r ih => simp [str_less, ih]

theorem str_less_trans {a b c : Str} (hab : str_less a b = true) (hbc : str_less b c = true) :
    str_less a c = true := by
  induction a generalizing b c with
  | nil =>
    cases b with
    | nil => simp [str_less] at hab
    | cons y b =>
      cases c with
      | nil => simp [str_less] at hbc
      | cons z c => rfl
  | cons x a ih =>
    cases b with
    | nil => simp [str_less] at hab
    | cons y b =>
      cases c with
      | nil => simp [str_less] at hbc
      | cons z c =>
        simp only [str_less] at hab hbc ⊢
        by_cases hxy : x < y
        · by_cases hyz : y < z
          · simp [lt_trans hxy hyz]
          · simp only [hyz, if_false] at hbc
            by_cases hzy : z < y
            · simp [hzy] at hbc
            · have : y = z := le_antisymm (not_lt.mp hzy) (not_lt.mp hyz)
              subst this
              simp [hxy]
        · simp only [hxy, if_false] at hab
          by_cases hyx : y < x
          · simp [hyx] at hab
          · have hxy' : x = y := le_antisymm (not_lt.mp hyx) (not_lt.mp hxy)
            subst hxy'
            simp only [hyx, if_false] at hab
            by_cases hxz : x < z
            · simp [hxz]
            · simp only [hxz, if_false] at hbc ⊢
              by_cases hzx : z < x
              · simp [hzx] at hbc
              · simp only [hzx, if_false] at hbc ⊢
                exact ih hab hbc

theorem str_less_total {a b : Str} (hab : str_less a b = false) (hba : str_less b a = false) :
    a = b := by
  induction a generalizing b with
  | nil =>
    cases b with
    | nil => rfl
    | cons y b => simp [str_less] at hab
  | cons x a ih =>
    cases b with
    | nil => simp [str_less] at hba
    | cons y b =>
      simp only [str_less] at hab hba
      by_cases hxy : x < y
      · simp [hxy] at hab
      · by_cases hyx : y < x
        · simp [hyx] at hba
        · simp only [hxy, hyx, if_false] at hab hba
          have : x = y := le_antisymm (not_lt.mp hyx) (not_lt.mp hxy)
          rw [this, ih hab hba]

theorem str_less_ne {a b : Str} (h : str_less a b = true) : a ≠ b := by
  intro e
  rw [e, str_less_irrefl] at h
  cases h

theorem insert_nil {V : Type} (k : Str) (v : V) :
    StdMap.insert_or_assign ([] : StdMap V) k v = [(k, v)] := rfl

theorem insert_cons {V : Type} (k' : Str) (v' : V) (rest : StdMap V) (k : Str) (v : V) :
    StdMap.insert_or_assign ((k', v') :: rest) k v =
      if str_less k k' then (k, v) :: (k', v') :: rest
      else if str_less k' k then (k', v') :: StdMap.insert_or_assign rest k v
      else (k, v) :: rest := rfl

theorem find_insert_same {V : Type} (m : StdMap V) (k : Str) (v : V) :
    StdMap.find? (StdMap.insert_or_assign m k v) k = some v := by
  induction m with
  | nil => rw [insert_nil, find_cons, if_pos rfl]
  | cons e rest ih =>
    obtain ⟨k', v'⟩ := e
    rw [insert_cons]
    split
    · rw [find_cons, if_pos rfl]
    · split
      · rename_i h
        rw [find_cons, if_neg (str_less_ne h), ih]
      · rw [find_cons, if_pos rfl]

theorem find_insert_other {V : Type} (m : StdMap V) (k : Str) (v : V) (k2 : Str)
    (hne : k2 ≠ k) :
    StdMap.find? (StdMap.insert_or_assign m k v) k2 = StdMap.find? m k2 := by
  induction m with
  | nil => rw [insert_nil, find_cons, if_neg (fun e => hne e.symm)]
  | cons e rest ih =>
    obtain ⟨k', v'⟩ := e
    rw [insert_cons]
    split
    · rw [find_cons, if_neg (fun e => hne e.symm)]
    · split
      · rw [find_cons, find_cons, ih]
      · rename_i h1 h2
        have hk : k = k' :=
          str_less_total (Bool.eq_false_iff.mpr h1) (Bool.eq_false_iff.mpr h2)
        subst hk
        rw [find_cons, find_cons, if_neg (fun e => hne e.symm), if_neg (fun e => hne e.symm)]

theorem insert_insert {V : Type} (m : StdMap V) (k : Str) (x y : V) :
    StdMap.insert_or_assign (StdMap.insert_or_assign m k x) k y
      = StdMap.insert_or_assign m k y := by
  induction m with
  | nil => simp [insert_nil, insert_cons, str_less_irrefl]
  | cons e rest ih =>
    obtain ⟨k', v'⟩ := e
    rw [insert_cons, insert_cons]
    split
    · simp [insert_cons, str_less_irrefl]
    · rename_i h1
      split
      · rename_i h2
        rw [insert_cons, if_neg h1, if_pos h2, ih]
      · simp [insert_cons, str_less_irrefl]

theorem mem_keys_insert {V : Type} (m : StdMap V) (k : Str) (v : V) (k2 : Str) :
    k2 ∈ StdMap.keys (StdMap.insert_or_assign m k v) ↔ k2 = k ∨ k2 ∈ StdMap.keys m := by
  rw [← find_isSome_iff_mem_keys, ← find_isSome_iff_mem_keys]
  by_cases h : k2 = k
  · subst h
    simp [find_insert_same]
  · rw [find_insert_other m k v k2 h]
    simp [h]

theorem wf_cons {V : Type} (e : Str × V) (rest : StdMap V) :
    StdMap.WF (e :: rest) ↔
      (∀ x ∈ StdMap.keys rest, str_less e.1 x = true) ∧ StdMap.WF rest := by
  unfold StdMap.WF
  rw [keys_cons, List.pairwise_cons]

theorem wf_insert {V : Type} (m : StdMap V) (k : Str) (v : V) (h : StdMap.WF m) :
    StdMap.WF (StdMap.insert_or_assign m k v) := by
  induction m with
  | nil =>
    rw [insert_nil, wf_cons]
    exact ⟨fun x hx => (by cases hx), h⟩
  | cons e rest ih =>
    obtain ⟨k', v'⟩ := e
    have h' := (wf_cons _ _).mp h
    rw [insert_cons]
    split
    · rename_i h1
      rw [wf_cons]
      refine ⟨?_, h⟩
      intro x hx
      rw [keys_cons, List.mem_cons] at hx
      rcases hx with hx | hx
      · rw [hx]; exact h1
      · exact str_less_trans h1 (h'.1 x hx)
    · split
      · rename_i h1 h2
        rw [wf_cons]
        refine ⟨?_, ih h'.2⟩
        intro x hx
        rcases (mem_keys_insert rest k v x).mp hx with hx | hx
        · rw [hx]; exact h2
        · exact h'.1 x hx
      · rename_i h1 h2
        have hk : k = k' :=
          str_less_total (Bool.eq_false_iff.mpr h1) (Bool.eq_false_iff.mpr h2)
        subst hk
        rw [wf_cons]
        exact h'

theorem erase_cons {V : Type} (k' : Str) (v' : V) (rest : StdMap V) (k : Str) :
    StdMap.erase ((k', v') :: rest) k =
      if k' = k then StdMap.erase rest k else (k', v') :: StdMap.erase rest k := by
  unfold StdMap.erase
  by_cases h : k' = k <;> simp [List.filter_cons, h]

theorem find_erase_same {V : Type} (m : StdMap V) (k : Str) :
    StdMap.find? (StdMap.erase m k) k = none := by
  induction m with
  | nil => rfl
  | cons e rest ih =>
    obtain ⟨k', v'⟩ := e
    rw [erase_cons]
    split
    · exact ih
    · rename_i h
      rw [find_cons, if_neg h, ih]

theorem find_erase_other {V : Type} (m : StdMap V) (k k2 : Str) (hne : k2 ≠ k) :
    StdMap.find? (StdMap.erase m k) k2 = StdMap.find? m k2 := by
  induction m with
  | nil => rfl
  | cons e rest ih =>
    obtain ⟨k', v'⟩ := e
    rw [erase_cons]
    split
    · rename_i h
      rw [find_cons, if_neg (fun e => hne (e.symm.trans h)), ih]
    · rw [find_cons, find_cons, ih]

theorem wf_erase {V : Type} (m : StdMap V) (k : Str) (h : StdMap.WF m) :
    StdMap.WF (StdMap.erase m k) := by
  unfold StdMap.WF StdMap.keys StdMap.erase at *
  exact List.Pairwise.sublist (List.Sublist.map _ (List.filter_sublist _)) h

/-! ## The rebuild -/

theorem assign2_fresh (m : Snapshot) (u f v : Str) (h : StdMap.find? m u = none) :
    assign2 m u f v = StdMap.insert_or_assign m u [(f, v)] := by
  simp only [assign2, h]

theorem assign2_present (m : Snapshot) (u f v : Str) (inner : Attrs)
    (h : StdMap.find? m u = some inner) :
    assign2 m u f v = StdMap.insert_or_assign m u (StdMap.insert_or_assign inner f v) := by
  simp only [assign2, h]

theorem mem_of_find {V : Type} (m : StdMap V) (k : Str) (v : V)
    (h : StdMap.find? m k = some v) : (k, v) ∈ m := by
  induction m with
  | nil => cases h
  | cons e rest ih =>
    obtain ⟨k', v'⟩ := e
    rw [find_cons] at h
    split at h
    · rename_i hk
      cases h
      rw [hk]
      exact List.mem_cons_self _ _
    · exact List.mem_cons_of_mem _ (ih h)

theorem mem_insert {V : Type} (m : StdMap V) (k : Str) (v : V) (e : Str × V)
    (h : e ∈ StdMap.insert_or_assign m k v) : e = (k, v) ∨ e ∈ m := by
  induction m with
  | nil =>
    rw [insert_nil] at h
    exact Or.inl (List.mem_singleton.mp h)
  | cons e' rest ih =>
    obtain ⟨k', v'⟩ := e'
    rw [insert_cons] at h
    split at h
    · rcases List.mem_cons.mp h with h | h
      · exact Or.inl h
      · exact Or.inr h
    · split at h
      · rcases List.mem_cons.mp h with h | h
        · exact Or.inr (h ▸ List.mem_cons_self _ _)
        · rcases ih h with h | h
          · exact Or.inl h
          · exact Or.inr (List.mem_cons_of_mem _ h)
      · rcases List.mem_cons.mp h with h | h
        · exact Or.inl h
        · exact Or.inr (List.mem_cons_of_mem _ h)

theorem attrs_of_keys (attrs : Attrs) (a b c : Str) (h : StdMap.keys attrs = [a, b, c]) :
    ∃ x y z, attrs = [(a, x), (b, y), (c, z)] := by
  unfold StdMap.keys at h
  match attrs, h with
  | [(a', x), (b', y), (c', z)], h =>
    simp only [List.map_cons, List.map_nil, List.cons.injEq, and_true] at h
    obtain ⟨rfl, rfl, rfl⟩ := h
    exact ⟨x, y, z, rfl⟩

/-- The three assignments of sync_with_passwd store the attribute map of the record,
whether the user name is new or already has its three attributes. -/
theorem assign_three (m : Snapshot) (hm : three_attrs m) (r : Record) :
    assign2 (assign2 (assign2 m r.username "id".toList r.uid) r.username "home".toList r.home)
        r.username "shell".toList r.shell
      = StdMap.insert_or_assign m r.username (record_attrs r) := by
  cases hf : StdMap.find? m r.username with
  | none =>
    rw [assign2_fresh m _ _ _ hf,
      assign2_present _ _ _ _ _ (find_insert_same _ _ _), insert_insert,
      assign2_present _ _ _ _ _ (find_insert_same _ _ _), insert_insert]
    rfl
  | some inner =>
    obtain ⟨h, i, s, rfl⟩ := attrs_of_keys inner _ _ _ (hm _ (mem_of_find m _ _ hf))
    rw [assign2_present m _ _ _ _ hf,
      assign2_present _ _ _ _ _ (find_insert_same _ _ _), insert_insert,
      assign2_present _ _ _ _ _ (find_insert_same _ _ _), insert_insert]
    rfl

theorem three_attrs_insert (m : Snapshot) (hm : three_attrs m) (r : Record) :
    three_attrs (StdMap.insert_or_assign m r.username (record_attrs r)) := by
  intro e he
  rcases mem_insert m _ _ e he with h | h
  · rw [h]; rfl
  · exact hm e h

/-- One line of the rebuild, when std::stoi converts its uid field. -/
theorem sync_line_eq (m : Snapshot) (hm : three_attrs m) (line : Str)
    (hnum : ∀ r, parse_record line = some r → ∃ n, stoi r.uid = Except.ok n) :
    sync_line m line = Except.ok (sync_step m line) := by
  unfold sync_step sync_line parse_record at *
  split
  · rename_i username f1 uid f3 f4 home shell tl heq
    simp only [heq] at hnum ⊢
    obtain ⟨n, hn⟩ := hnum _ rfl
    simp only at hn
    simp only [hn, included, decide_eq_true_eq]
    by_cases h1 : n = 0 ∨ n ≥ 1000
    · by_cases h2 : shell ≠ "/bin/false".toList ∧ shell ≠ "/usr/sbin/nologin".toList
      · rw [if_pos h1, if_pos h2, if_pos ⟨h1, h2⟩]
        exact congrArg Except.ok (assign_three m hm ⟨username, uid, home, shell⟩)
      · rw [if_pos h1, if_neg h2, if_neg (fun h => h2 h.2)]
    · rw [if_neg h1, if_neg (fun h => h1 h.1)]
  · rename_i hno
    split
    · rename_i r heq
      cases heq
    · rfl

theorem sync_step_three_attrs (m : Snapshot) (hm : three_attrs m) (line : Str) :
    three_attrs (sync_step m line) := by
  unfold sync_step
  split
  · split
    · exact three_attrs_insert m hm _
    · exact hm
  · exact hm

theorem sync_step_wf (m : Snapshot) (hm : StdMap.WF m) (line : Str) :
    StdMap.WF (sync_step m line) := by
  unfold sync_step
  split
  · split
    · exact wf_insert m _ _ hm
    · exact hm
  · exact hm

theorem sync_step_find (m : Snapshot) (line : Str) (u : Str) (attrs : Attrs)
    (h : StdMap.find? (sync_step m line) u = some attrs) :
    StdMap.find? m u = some attrs ∨
      ∃ r, parse_record line = some r ∧ included r = true ∧ r.username = u ∧
        attrs = record_attrs r := by
  unfold sync_step at h
  split at h
  · rename_i r hr
    split at h
    · rename_i hinc
      by_cases hu : u = r.username
      · subst hu
        rw [find_insert_same] at h
        cases h
        exact Or.inr ⟨r, hr, hinc, rfl, rfl⟩
      · rw [find_insert_other _ _ _ _ hu] at h
        exact Or.inl h
    · exact Or.inl h
  · exact Or.inl h

theorem sync_step_keeps (m : Snapshot) (line : Str) (u : Str)
    (h : (StdMap.find? m u).isSome = true) :
    (StdMap.find? (sync_step m line) u).isSome = true := by
  unfold sync_step
  split
  · rename_i r hr
    split
    · by_cases hu : u = r.username
      · subst hu
        rw [find_insert_same]; rfl
      · rw [find_insert_other _ _ _ _ hu]; exact h
    · exact h
  · exact h

theorem sync_step_adds (m : Snapshot) (line : Str) (r : Record)
    (hr : parse_record line = some r) (hinc : included r = true) :
    StdMap.find? (sync_step m line) r.username = some (record_attrs r) := by
  unfold sync_step
  simp only [hr, hinc, if_true]
  exact find_insert_same _ _ _

/-- The loop of the rebuild from a snapshot whose accounts have their three attributes, on
lines whose uid fields std::stoi converts: it ends without an exception, and every entry
of the result was there before or is the record of an included line. -/
theorem sync_lines_spec (lines : List Str)
    (hnum : ∀ l ∈ lines, ∀ r, parse_record l = some r → ∃ n, stoi r.uid = Except.ok n) :
    ∀ m : Snapshot, three_attrs m →
      ∃ snap, sync_lines m lines = Except.ok snap ∧ three_attrs snap ∧
        (StdMap.WF m → StdMap.WF snap) ∧
        (∀ u attrs, StdMap.find? snap u = some attrs →
          StdMap.find? m u = some attrs ∨
            ∃ l ∈ lines, ∃ r, parse_record l = some r ∧ included r = true ∧
              r.username = u ∧ attrs = record_attrs r) ∧
        (∀ u, (StdMap.find? m u).isSome = true → (StdMap.find? snap u).isSome = true) ∧
        (∀ l ∈ lines, ∀ r, parse_record l = some r → included r = true →
          (StdMap.find? snap r.username).isSome = true) := by
  induction lines with
  | nil =>
    intro m hm
    exact ⟨m, rfl, hm, id, fun u attrs h => Or.inl h, fun u h => h,
      fun l hl => (by cases hl)⟩
  | cons line rest ih =>
    intro m hm
    have hline := sync_line_eq m hm line (hnum line (List.mem_cons_self _ _))
    obtain ⟨snap, hsnap, h3, hwf, hfind, hkeep, hadd⟩ :=
      ih (fun l hl => hnum l (List.mem_cons_of_mem _ hl)) (sync_step m line)
        (sync_step_three_attrs m hm line)
    refine ⟨snap, ?_, h3, fun h => hwf (sync_step_wf m h line), ?_, ?_, ?_⟩
    · simp only [sync_lines, hline]
      exact hsnap
    · intro u attrs h
      rcases hfind u attrs h with h1 | ⟨l, hl, r, h2⟩
      · rcases sync_step_find m line u attrs h1 with h3 | ⟨r, h4⟩
        · exact Or.inl h3
        · exact Or.inr ⟨line, List.mem_cons_self _ _, r, h4⟩
      · exact Or.inr ⟨l, List.mem_cons_of_mem _ hl, r, h2⟩
    · intro u h
      exact hkeep u (sync_step_keeps m line u h)
    · intro l hl r hr hinc
      rcases List.mem_cons.mp hl with h1 | h1
      · subst h1
        apply hkeep
        rw [sync_step_adds m l r hr hinc]; rfl
      · exact hadd l h1 r hr hinc

/-- The rebuild where no exception is thrown: for lines whose uid fields std::stoi
converts (every line with a fields vector of at least 7 entries, as std::getline reads
them), the rebuild returns normally
with one snapshot whatever the previous snapshot was; that snapshot is in key order, its
keys are exactly the user names (field 0) of the lines with at least 7 fields that pass the
inclusion test (uid 0 or at least 1000, shell neither /bin/false nor /usr/sbin/nologin),
and each key is mapped to id = field 2, home = field 5, shell = field 6 of such a line.
The two lines for root and nobody give a snapshot that holds root only. -/
theorem sync_with_passwd_rebuild (prev : Snapshot) (lines : List Str)
    (hnum : ∀ l ∈ lines, ∀ r, parse_record l = some r → ∃ n, stoi r.uid = Except.ok n) :
    ∃ snap : Snapshot,
      (∀ previous : Snapshot, sync_with_passwd previous (some lines) = Except.ok snap) ∧
      StdMap.WF snap ∧
      (∀ u, u ∈ StdMap.keys snap ↔
        ∃ l ∈ lines, ∃ r, parse_record l = some r ∧ included r = true ∧ r.username = u) ∧
      (∀ u attrs, StdMap.find? snap u = some attrs →
        ∃ l ∈ lines, ∃ r, parse_record l = some r ∧ included r = true ∧ r.username = u ∧
          attrs = [("home".toList, r.home), ("id".toList, r.uid), ("shell".toList, r.shell)]) ∧
      sync_with_passwd prev (some ["root:x:0:0:root:/root:/bin/bash".toList,
          "nobody:x:65534:65534::/nonexistent:/usr/sbin/nologin".toList])
        = Except.ok [("root".toList, [("home".toList, "/root".toList),
            ("id".toList, "0".toList), ("shell".toList, "/bin/bash".toList)])] := by
  have hempty : three_attrs ([] : Snapshot) := fun e he => by cases he
  obtain ⟨snap, hsnap, _, hwf, hfind, _, hadd⟩ := sync_lines_spec lines hnum [] hempty
  refine ⟨snap, fun _ => hsnap, hwf (by unfold StdMap.WF StdMap.keys; exact List.Pairwise.nil),
    ?_, ?_, rfl⟩
  · intro u
    rw [← find_isSome_iff_mem_keys]
    constructor
    · intro h
      obtain ⟨attrs, hattrs⟩ := Option.isSome_iff_exists.mp h
      rcases hfind u attrs hattrs with h1 | ⟨l, hl, r, h2, h3, h4, _⟩
      · cases h1
      · exact ⟨l, hl, r, h2, h3, h4⟩
    · rintro ⟨l, hl, r, h2, h3, h4⟩
      rw [← h4]
      exact hadd l hl r h2 h3
  · intro u attrs h
    rcases hfind u attrs h with h1 | h1
    · cases h1
    · exact h1

/-- Witness of sync_with_passwd_rebuild: a previous snapshot holding bob, and the lines
for alice (uid 1000, included) and daemon (uid 1, left out). -/
theorem sync_with_passwd_rebuild_witness :
    ∃ snap : Snapshot,
      (∀ previous : Snapshot,
        sync_with_passwd previous (some ["alice:x:1000:1000::/home/alice:/bin/sh".toList,
          "daemon:x:1:1:daemon:/usr/sbin:/bin/sh".toList]) = Except.ok snap) ∧
      StdMap.WF snap ∧
      (∀ u, u ∈ StdMap.keys snap ↔
        ∃ l ∈ ["alice:x:1000:1000::/home/alice:/bin/sh".toList,
          "daemon:x:1:1:daemon:/usr/sbin:/bin/sh".toList],
          ∃ r, parse_record l = some r ∧ included r = true ∧ r.username = u) ∧
      (∀ u attrs, StdMap.find? snap u = some attrs →
        ∃ l ∈ ["alice:x:1000:1000::/home/alice:/bin/sh".toList,
          "daemon:x:1:1:daemon:/usr/sbin:/bin/sh".toList],
          ∃ r, parse_record l = some r ∧ included r = true ∧ r.username = u ∧
          attrs = [("home".toList, r.home), ("id".toList, r.uid), ("shell".toList, r.shell)]) ∧
      sync_with_passwd [("bob".toList, [])] (some ["root:x:0:0:root:/root:/bin/bash".toList,
          "nobody:x:65534:65534::/nonexistent:/usr/sbin/nologin".toList])
        = Except.ok [("root".toList, [("home".toList, "/root".toList),
            ("id".toList, "0".toList), ("shell".toList, "/bin/bash".toList)])] :=
  sync_with_passwd_rebuild [("bob".toList, [])]
    ["alice:x:1000:1000::/home/alice:/bin/sh".toList,
      "daemon:x:1:1:daemon:/usr/sbin:/bin/sh".toList]
    (by
      intro l hl r hr
      rcases List.mem_cons.mp hl with h | h
      · subst h
        have hp : parse_record "alice:x:1000:1000::/home/alice:/bin/sh".toList
            = some ⟨"alice".toList, "1000".toList, "/home/alice".toList, "/bin/sh".toList⟩ := rfl
        rw [hp] at hr
        cases hr
        exact ⟨1000, rfl⟩
      · rcases List.mem_cons.mp h with h | h
        · subst h
          have hp : parse_record "daemon:x:1:1:daemon:/usr/sbin:/bin/sh".toList
              = some ⟨"daemon".toList, "1".toList, "/usr/sbin".toList, "/bin/sh".toList⟩ := rfl
          rw [hp] at hr
          cases hr
          exact ⟨1, rfl⟩
        · cases h)

/-- C2, the code at the failing inputs.  The line alice:x:1000:1000:Alice:/home/alice: has
seven colon-separated fields, uid 1000 and an empty shell, which is not on the deny list,
so alice belongs in the snapshot; std::getline does not read the empty last field, the
fields vector has six entries and the rebuild leaves alice out.  The same line with one
more colon gets a fields vector of seven entries and is stored, with the empty shell.
The line with the numeric uid 4294967294, which is at least 1000, makes std::stoi throw
out_of_range, and the exception ends the rebuild. -/
theorem sync_with_passwd_empty_shell :
    List.splitOn ':' "alice:x:1000:1000:Alice:/home/alice:".toList
        = ["alice".toList, "x".toList, "1000".toList, "1000".toList, "Alice".toList,
            "/home/alice".toList, []] ∧
      split_fields "alice:x:1000:1000:Alice:/home/alice:".toList
        = ["alice".toList, "x".toList, "1000".toList, "1000".toList, "Alice".toList,
            "/home/alice".toList] ∧
      sync_with_passwd [] (some ["alice:x:1000:1000:Alice:/home/alice:".toList])
        = Except.ok [] ∧
      sync_with_passwd [] (some ["alice:x:1000:1000:Alice:/home/alice::".toList])
        = Except.ok [("alice".toList, [("home".toList, "/home/alice".toList),
            ("id".toList, "1000".toList), ("shell".toList, [])])] ∧
      sync_with_passwd []
          (some ["nfsnobody:x:4294967294:4294967294::/var/lib/nfs:/bin/sh".toList])
        = Except.error Exn.out_of_range := by
  refine ⟨by decide, by decide, rfl, rfl, rfl⟩

/-- C1 fails as stated: the rebuild stores the user name a/b of the line
a/b:x:0:0::/root:/bin/bash with id 0, yet read of the path /a/b/id takes a for the user
name and b for the attribute and returns -ENOENT. -/
theorem read_account_file_counterexample :
    sync_with_passwd [] (some ["a/b:x:0:0::/root:/bin/bash".toList])
        = Except.ok [("a/b".toList, [("home".toList, "/root".toList),
            ("id".toList, "0".toList), ("shell".toList, "/bin/bash".toList)])] ∧
      sscanf_user_file ("/".toList ++ "a/b".toList ++ "/".toList ++ "id".toList)
        = (2, "a".toList, "b".toList) ∧
      read [("a/b".toList, [("home".toList, "/root".toList),
            ("id".toList, "0".toList), ("shell".toList, "/bin/bash".toList)])]
          ("/".toList ++ "a/b".toList ++ "/".toList ++ "id".toList) 10 0
        = (-ENOENT, [], [("a/b".toList, [("home".toList, "/root".toList),
            ("id".toList, "0".toList), ("shell".toList, "/bin/bash".toList)])]) := by
  refine ⟨rfl, by decide, rfl⟩

/-- C3, the code at the failing input: a line with the uid field abc followed by the line
of root.  std::stoi throws invalid_argument on the first line and the exception leaves
sync_with_passwd, so the rebuild does not complete and root is never stored; the line of
root alone gives a snapshot with root. -/
theorem sync_with_passwd_malformed_uid :
    sync_with_passwd [] (some ["games:x:abc:100:games:/usr/games:/bin/sh".toList,
          "root:x:0:0:root:/root:/bin/bash".toList])
        = Except.error Exn.invalid_argument ∧
      sync_with_passwd [] (some ["root:x:0:0:root:/root:/bin/bash".toList])
        = Except.ok [("root".toList, [("home".toList, "/root".toList),
            ("id".toList, "0".toList), ("shell".toList, "/bin/bash".toList)])] := by
  exact ⟨rfl, rfl⟩

theorem slash_ne_path {u : Str} (hu : valid_segment u) : ¬ ('/' :: u = "/".toList) := by
  intro h
  have : u = [] := by
    have h2 : '/' :: u = ['/'] := h
    exact (List.cons.inj h2).2
  exact hu.1 this

theorem getattr_dir_present (env : Env) (vfs_data : Snapshot) (u : Str)
    (hu : valid_segment u) (hin : u ∈ StdMap.keys vfs_data) :
    getattr env vfs_data ('/' :: u)
      = (0, ⟨S_IFDIR ||| 0o755, env.uid, env.gid, 0, env.now, env.now, env.now⟩, vfs_data) := by
  have hc := (count_eq_one_iff vfs_data u).mpr hin
  unfold getattr
  simp only [c_str_path_one hu, if_neg (slash_ne_path hu), sscanf_user_file_segment hu,
    sscanf_user_segment hu, hc]
  simp [stat_init]

theorem getattr_dir_absent (env : Env) (vfs_data : Snapshot) (u : Str)
    (hu : valid_segment u) (hout : u ∉ StdMap.keys vfs_data) :
    getattr env vfs_data ('/' :: u) = (-ENOENT, stat_init env, vfs_data) := by
  have hc := (count_eq_zero_iff vfs_data u).mpr hout
  unfold getattr
  simp only [c_str_path_one hu, if_neg (slash_ne_path hu), sscanf_user_file_segment hu,
    sscanf_user_segment hu, hc]
  simp

/-- C4 (amended): for a user name u that is a valid path segment (not empty, at most 255
bytes, no slash, no NUL): if u is a key of the snapshot, getattr of /u returns 0 and
reports a directory with mode 0755, owned by the process, stamped with the current time,
and leaves the snapshot as it was; if u is not a key, getattr of /u returns -ENOENT. -/
theorem getattr_account_dir (env : Env) (vfs_data : Snapshot) (u : Str)
    (hu : valid_segment u) :
    (u ∈ StdMap.keys vfs_data →
      getattr env vfs_data ("/".toList ++ u)
        = (0, ⟨S_IFDIR ||| 0o755, env.uid, env.gid, 0, env.now, env.now, env.now⟩, vfs_data)
      ∧ (S_IFDIR ||| 0o755) &&& S_IFMT = S_IFDIR ∧ (S_IFDIR ||| 0o755) &&& 0o7777 = 0o755) ∧
    (u ∉ StdMap.keys vfs_data →
      getattr env vfs_data ("/".toList ++ u) = (-ENOENT, stat_init env, vfs_data)) := by
  have hp : ("/".toList ++ u) = '/' :: u := rfl
  rw [hp]
  exact ⟨fun hin => ⟨getattr_dir_present env vfs_data u hu hin, by decide, by decide⟩,
    fun hout => getattr_dir_absent env vfs_data u hu hout⟩

/-- Witness of getattr_account_dir: the user name root on the snapshot that holds root. -/
theorem getattr_account_dir_witness :
    ("root".toList ∈ StdMap.keys ([("root".toList, [("home".toList, "/root".toList),
          ("id".toList, "0".toList), ("shell".toList, "/bin/bash".toList)])] : Snapshot) →
      getattr ⟨1700000000, 0, 0⟩ [("root".toList, [("home".toList, "/root".toList),
          ("id".toList, "0".toList), ("shell".toList, "/bin/bash".toList)])]
          ("/".toList ++ "root".toList)
        = (0, ⟨S_IFDIR ||| 0o755, 0, 0, 0, 1700000000, 1700000000, 1700000000⟩,
            [("root".toList, [("home".toList, "/root".toList),
              ("id".toList, "0".toList), ("shell".toList, "/bin/bash".toList)])])
      ∧ (S_IFDIR ||| 0o755) &&& S_IFMT = S_IFDIR ∧ (S_IFDIR ||| 0o755) &&& 0o7777 = 0o755) ∧
    ("root".toList ∉ StdMap.keys ([("root".toList, [("home".toList, "/root".toList),
          ("id".toList, "0".toList), ("shell".toList, "/bin/bash".toList)])] : Snapshot) →
      getattr ⟨1700000000, 0, 0⟩ [("root".toList, [("home".toList, "/root".toList),
          ("id".toList, "0".toList), ("shell".toList, "/bin/bash".toList)])]
          ("/".toList ++ "root".toList)
        = (-ENOENT, stat_init ⟨1700000000, 0, 0⟩,
            [("root".toList, [("home".toList, "/root".toList),
              ("id".toList, "0".toList), ("shell".toList, "/bin/bash".toList)])])) :=
  getattr_account_dir ⟨1700000000, 0, 0⟩ _ "root".toList (by decide)

/-- C4 fails as stated.  The empty string is not a key of the empty snapshot, yet getattr
of the path made of the slash and the empty string, the root, succeeds.  The string
root/id is not a key of a snapshot that holds root, yet getattr of /root/id succeeds and
reports a regular file. -/
theorem getattr_account_dir_counterexample :
    (([] : Str) ∉ StdMap.keys ([] : Snapshot) ∧
      (getattr ⟨1700000000, 0, 0⟩ [] ("/".toList ++ [])).1 = 0) ∧
    ("root/id".toList ∉ StdMap.keys ([("root".toList, [("home".toList, "/root".toList),
          ("id".toList, "0".toList), ("shell".toList, "/bin/bash".toList)])] : Snapshot) ∧
      getattr ⟨1700000000, 0, 0⟩ [("root".toList, [("home".toList, "/root".toList),
          ("id".toList, "0".toList), ("shell".toList, "/bin/bash".toList)])]
          ("/".toList ++ "root/id".toList)
        = (0, ⟨S_IFREG ||| 0o644, 0, 0, 1, 1700000000, 1700000000, 1700000000⟩,
            [("root".toList, [("home".toList, "/root".toList),
              ("id".toList, "0".toList), ("shell".toList, "/bin/bash".toList)])])) := by
  refine ⟨⟨by decide, rfl⟩, by decide, rfl⟩

theorem map_c_str_keys (vfs_data : Snapshot)
    (hnul : ∀ k ∈ StdMap.keys vfs_data, NUL ∉ k) :
    vfs_data.map (fun entry => c_str entry.1) = StdMap.keys vfs_data := by
  unfold StdMap.keys
  apply List.map_congr_left
  intro e he
  exact c_str_eq_self (hnul e.1 (List.mem_map_of_mem Prod.fst he))

/-- C5 (amended): for every snapshot (a std::map, so with its keys in ascending order)
whose user names contain no NUL byte, readdir of the root returns 0 and hands to filler
exactly the names ., .. and then the user names of the snapshot in iteration order; these
are strictly ascending in the byte-wise lexicographic order, hence without duplicates, and
the number of names after the first two is the size of the snapshot. -/
theorem readdir_root (vfs_data : Snapshot) (hwf : StdMap.WF vfs_data)
    (hnul : ∀ k ∈ StdMap.keys vfs_data, NUL ∉ k) :
    readdir vfs_data "/".toList
        = (0, ".".toList :: "..".toList :: StdMap.keys vfs_data) ∧
      ((readdir vfs_data "/".toList).2.drop 2).Pairwise (fun a b => str_less a b = true) ∧
      ((readdir vfs_data "/".toList).2.drop 2).Nodup ∧
      ((readdir vfs_data "/".toList).2.drop 2).length = StdMap.size vfs_data := by
  have hc : c_str "/".toList = "/".toList := by decide
  have h : readdir vfs_data "/".toList
      = (0, ".".toList :: "..".toList :: StdMap.keys vfs_data) := by
    unfold readdir
    simp only [hc, if_true, map_c_str_keys vfs_data hnul]
    rfl
  rw [h]
  refine ⟨rfl, hwf, ?_, ?_⟩
  · exact List.Pairwise.imp (fun hab => str_less_ne hab) hwf
  · simp [StdMap.size, StdMap.keys]

/-- Witness of readdir_root: the snapshot with the accounts alice and root. -/
theorem readdir_root_witness :
    readdir [("alice".toList, [("home".toList, "/home/alice".toList),
            ("id".toList, "1000".toList), ("shell".toList, "/bin/sh".toList)]),
          ("root".toList, [("home".toList, "/root".toList),
            ("id".toList, "0".toList), ("shell".toList, "/bin/bash".toList)])] "/".toList
        = (0, [".".toList, "..".toList, "alice".toList, "root".toList]) :=
  (readdir_root [("alice".toList, [("home".toList, "/home/alice".toList),
            ("id".toList, "1000".toList), ("shell".toList, "/bin/sh".toList)]),
          ("root".toList, [("home".toList, "/root".toList),
            ("id".toList, "0".toList), ("shell".toList, "/bin/bash".toList)])]
    (by decide) (by decide)).1

/-- C5 fails as stated: two lines whose user names are the bytes a, NUL, b and a, NUL, c
are both stored by the rebuild, in key order; readdir hands each key to filler as a C
string, which ends at the NUL, so that the name a is emitted twice and neither user
name of the snapshot is emitted. -/
theorem readdir_root_counterexample :
    sync_with_passwd [] (some ['a' :: NUL :: "b:x:0:0::/:/bin/sh".toList,
          'a' :: NUL :: "c:x:0:0::/:/bin/sh".toList])
        = Except.ok [(['a', NUL, 'b'], [("home".toList, "/".toList),
              ("id".toList, "0".toList), ("shell".toList, "/bin/sh".toList)]),
            (['a', NUL, 'c'], [("home".toList, "/".toList),
              ("id".toList, "0".toList), ("shell".toList, "/bin/sh".toList)])] ∧
      readdir [(['a', NUL, 'b'], [("home".toList, "/".toList),
              ("id".toList, "0".toList), ("shell".toList, "/bin/sh".toList)]),
            (['a', NUL, 'c'], [("home".toList, "/".toList),
              ("id".toList, "0".toList), ("shell".toList, "/bin/sh".toList)])] "/".toList
        = (0, [".".toList, "..".toList, "a".toList, "a".toList]) ∧
      ¬ ([".".toList, "..".toList, "a".toList, "a".toList].drop 2).Nodup := by
  refine ⟨rfl, rfl, by decide⟩

/-- C6 (amended): for a user name u that is a valid path segment and a key of the
snapshot, mkdir of /u returns -EEXIST, runs no command and leaves the snapshot as it
was, whatever the tools or the record source would answer. -/
theorem mkdir_existing (vfs_data : Snapshot) (u : Str) (useradd_status adduser_status : Int)
    (passwd_file : Option (List Str))
    (hu : valid_segment u) (hin : u ∈ StdMap.keys vfs_data) :
    mkdir vfs_data ("/".toList ++ u) useradd_status adduser_status passwd_file
      = (Except.ok (-EEXIST, vfs_data), []) := by
  have hp : ("/".toList ++ u) = '/' :: u := rfl
  have hc := (count_eq_one_iff vfs_data u).mpr hin
  rw [hp]
  unfold mkdir
  simp only [c_str_path_one hu, sscanf_user_segment hu, hc]
  simp

/-- Witness of mkdir_existing: root exists, both tools would succeed. -/
theorem mkdir_existing_witness :
    mkdir [("root".toList, [("home".toList, "/root".toList),
            ("id".toList, "0".toList), ("shell".toList, "/bin/bash".toList)])]
        ("/".toList ++ "root".toList) 0 0 (some [])
      = (Except.ok (-EEXIST, [("root".toList, [("home".toList, "/root".toList),
            ("id".toList, "0".toList), ("shell".toList, "/bin/bash".toList)])]), []) :=
  mkdir_existing _ "root".toList 0 0 (some []) (by decide) (by decide)

/-- C6 fails as stated: the user name team/alice, stored by the rebuild from its line,
is present, yet mkdir of /team/alice takes team for the user name, runs useradd for team
and returns 0 after a rebuild. -/
theorem mkdir_existing_counterexample :
    sync_with_passwd [] (some ["team/alice:x:1000:1000::/home/alice:/bin/sh".toList])
        = Except.ok [("team/alice".toList, [("home".toList, "/home/alice".toList),
            ("id".toList, "1000".toList), ("shell".toList, "/bin/sh".toList)])] ∧
      mkdir [("team/alice".toList, [("home".toList, "/home/alice".toList),
            ("id".toList, "1000".toList), ("shell".toList, "/bin/sh".toList)])]
          ("/".toList ++ "team/alice".toList) 0 0
          (some ["team/alice:x:1000:1000::/home/alice:/bin/sh".toList])
        = (Except.ok (0, [("team/alice".toList, [("home".toList, "/home/alice".toList),
            ("id".toList, "1000".toList), ("shell".toList, "/bin/sh".toList)])]),
           ["useradd -m -s /bin/bash team 2>/dev/null".toList]) := by
  refine ⟨rfl, rfl⟩

theorem no_slash_after {u : Str} (hu : valid_segment u) : '/' ∉ ('/' :: u).drop 1 :=
  hu.2.2.1

/-- C7 (amended): for a user name u that is a valid path segment (not empty, at most 255
bytes, no slash, no NUL) and a key of the snapshot, when the removal tool succeeds rmdir
of /u returns 0 after running userdel for u only; the snapshot it leaves is the old one
without the entry of u: u has no entry, every other user name has the entry it had, the
key order is kept; and getattr of /u on that snapshot returns -ENOENT. -/
theorem rmdir_success (env : Env) (vfs_data : Snapshot) (u : Str)
    (hu : valid_segment u) (hin : u ∈ StdMap.keys vfs_data) :
    rmdir vfs_data ("/".toList ++ u) 0
        = (0, StdMap.erase vfs_data u, [userdel_command u]) ∧
      StdMap.find? (StdMap.erase vfs_data u) u = none ∧
      (∀ v, v ≠ u → StdMap.find? (StdMap.erase vfs_data u) v = StdMap.find? vfs_data v) ∧
      (StdMap.WF vfs_data → StdMap.WF (StdMap.erase vfs_data u)) ∧
      (getattr env (StdMap.erase vfs_data u) ("/".toList ++ u)).1 = -ENOENT := by
  have hp : ("/".toList ++ u) = '/' :: u := rfl
  have hc := (count_eq_one_iff vfs_data u).mpr hin
  have hgone : u ∉ StdMap.keys (StdMap.erase vfs_data u) := by
    rw [← find_isSome_iff_mem_keys, find_erase_same]
    simp
  refine ⟨?_, find_erase_same _ _, fun v hv => find_erase_other _ _ _ hv,
    wf_erase _ _, ?_⟩
  · rw [hp]
    unfold rmdir
    simp only [c_str_path_one hu, sscanf_user_segment hu, hc, if_pos (no_slash_after hu)]
    simp
  · rw [hp, getattr_dir_absent env (StdMap.erase vfs_data u) u hu hgone]

/-- Witness of rmdir_success: alice is removed from the snapshot of alice and root. -/
theorem rmdir_success_witness :
    rmdir [("alice".toList, [("home".toList, "/home/alice".toList),
            ("id".toList, "1000".toList), ("shell".toList, "/bin/sh".toList)]),
          ("root".toList, [("home".toList, "/root".toList),
            ("id".toList, "0".toList), ("shell".toList, "/bin/bash".toList)])]
        ("/".toList ++ "alice".toList) 0
      = (0, StdMap.erase [("alice".toList, [("home".toList, "/home/alice".toList),
            ("id".toList, "1000".toList), ("shell".toList, "/bin/sh".toList)]),
          ("root".toList, [("home".toList, "/root".toList),
            ("id".toList, "0".toList), ("shell".toList, "/bin/bash".toList)])]
            "alice".toList, [userdel_command "alice".toList]) :=
  (rmdir_success ⟨0, 0, 0⟩ _ "alice".toList (by decide) (by decide)).1

set_option maxRecDepth 100000 in
/-- C7 fails as stated, for user names without a slash.  The rebuild stores the empty
user name of the line :x:0:0::/root:/bin/sh, and rmdir of the slash followed by that name
returns -EPERM without touching the snapshot although the removal tool would succeed.
A user name of 256 bytes is cut to 255 bytes by the scan, so rmdir returns -ENOENT. -/
theorem rmdir_success_counterexample :
    sync_with_passwd [] (some [":x:0:0::/root:/bin/sh".toList])
        = Except.ok [([], [("home".toList, "/root".toList),
            ("id".toList, "0".toList), ("shell".toList, "/bin/sh".toList)])] ∧
      rmdir [([], [("home".toList, "/root".toList),
            ("id".toList, "0".toList), ("shell".toList, "/bin/sh".toList)])]
          ("/".toList ++ []) 0
        = (-EPERM, [([], [("home".toList, "/root".toList),
            ("id".toList, "0".toList), ("shell".toList, "/bin/sh".toList)])], []) ∧
      rmdir [(List.replicate 256 'a', [("home".toList, "/root".toList),
            ("id".toList, "0".toList), ("shell".toList, "/bin/sh".toList)])]
          ("/".toList ++ List.replicate 256 'a') 0
        = (-ENOENT, [(List.replicate 256 'a', [("home".toList, "/root".toList),
            ("id".toList, "0".toList), ("shell".toList, "/bin/sh".toList)])], []) := by
  refine ⟨rfl, rfl, rfl⟩

/-- C8: tool failure is atomic.  When the commands return a non-zero status, then for every
snapshot and every path: mkdir either runs no command (it returns -EEXIST or 0), or runs
the primary command and then the fallback for one user name and returns -EIO, and in each
case leaves the snapshot as it was; for a valid segment u that is not a key, mkdir of /u
is of the second kind, with the commands for u.  When the primary command succeeds the
fallback is not run.  rmdir either runs no command and leaves the snapshot as it was, or
runs userdel for one user name, returns -EIO and leaves the snapshot as it was; for a
valid segment u that is a key, rmdir of /u is of the second kind, with the command for u. -/
theorem tool_failure_atomic (vfs_data : Snapshot) (path : Str)
    (useradd_status adduser_status userdel_status : Int) (passwd_file : Option (List Str))
    (h1 : useradd_status ≠ 0) (h2 : adduser_status ≠ 0) (h3 : userdel_status ≠ 0) :
    ((mkdir vfs_data path useradd_status adduser_status passwd_file
          = (Except.ok (-EEXIST, vfs_data), []) ∨
        mkdir vfs_data path useradd_status adduser_status passwd_file
          = (Except.ok (0, vfs_data), [])) ∨
      ∃ username, mkdir vfs_data path useradd_status adduser_status passwd_file
          = (Except.ok (- EIO, vfs_data),
              [useradd_command username, adduser_command username])) ∧
    (∀ u, valid_segment u → u ∉ StdMap.keys vfs_data →
      mkdir vfs_data ("/".toList ++ u) useradd_status adduser_status passwd_file
        = (Except.ok (- EIO, vfs_data), [useradd_command u, adduser_command u])) ∧
    ((mkdir vfs_data path 0 adduser_status passwd_file).2 = [] ∨
      ∃ username, (mkdir vfs_data path 0 adduser_status passwd_file).2
        = [useradd_command username]) ∧
    ((rmdir vfs_data path userdel_status).2 = (vfs_data, []) ∨
      ∃ username, rmdir vfs_data path userdel_status
        = (- EIO, vfs_data, [userdel_command username])) ∧
    (∀ u, valid_segment u → u ∈ StdMap.keys vfs_data →
      rmdir vfs_data ("/".toList ++ u) userdel_status
        = (- EIO, vfs_data, [userdel_command u])) := by
  refine ⟨?_, ?_, ?_, ?_, ?_⟩
  · unfold mkdir
    simp only
    generalize sscanf_user (c_str path) = p
    obtain ⟨n, username⟩ := p
    simp only
    by_cases hn : n = 1
    · by_cases hc : StdMap.count vfs_data username ≠ 0
      · left; left
        rw [if_pos hc, if_pos hn]
      · right
        refine ⟨username, ?_⟩
        simp only [hn, hc, if_true, if_false, h1, h2, ne_eq, not_false_eq_true]
    · left; right
      simp only [hn, if_false]
  · intro u hu hout
    have hp : ("/".toList ++ u) = '/' :: u := rfl
    have hc := (count_eq_zero_iff vfs_data u).mpr hout
    rw [hp]
    unfold mkdir
    simp only [c_str_path_one hu, sscanf_user_segment hu, hc, h1, h2, if_true, if_false,
      ne_eq, not_true_eq_false, not_false_eq_true]
  · unfold mkdir
    simp only
    generalize sscanf_user (c_str path) = p
    obtain ⟨n, username⟩ := p
    simp only
    by_cases hn : n = 1
    · by_cases hc : StdMap.count vfs_data username ≠ 0
      · left
        rw [if_pos hc, if_pos hn]
      · right
        refine ⟨username, ?_⟩
        simp only [hn, hc, if_true, if_false, ne_eq, not_true_eq_false]
        split <;> rfl
    · left
      simp only [hn, if_false]
  · unfold rmdir
    simp only
    generalize sscanf_user (c_str path) = p
    obtain ⟨n, username⟩ := p
    simp only
    by_cases hn : n = 1
    · by_cases hsl : '/' ∉ (c_str path).drop 1
      · by_cases hc : StdMap.count vfs_data username = 0
        · left
          simp only [hn, hsl, hc, if_true, not_false_eq_true]
        · right
          refine ⟨username, ?_⟩
          simp only [hn, hsl, hc, h3, if_true, if_false, not_false_eq_true]
      · left
        simp only [hn, hsl, if_true, if_false]
    · left
      simp only [hn, if_false]
  · intro u hu hin
    have hp : ("/".toList ++ u) = '/' :: u := rfl
    have hc := (count_eq_one_iff vfs_data u).mpr hin
    rw [hp]
    unfold rmdir
    simp only [c_str_path_one hu, sscanf_user_segment hu, hc, h3, if_pos (no_slash_after hu),
      if_true, if_false]
    simp

/-- Witness of tool_failure_atomic: on the snapshot that holds root, creating /alice and
removing /root with every tool returning a failure status. -/
theorem tool_failure_atomic_witness :
    mkdir [("root".toList, [("home".toList, "/root".toList),
            ("id".toList, "0".toList), ("shell".toList, "/bin/bash".toList)])]
        ("/".toList ++ "alice".toList) 256 256 (some [])
      = (Except.ok (- EIO, [("root".toList, [("home".toList, "/root".toList),
            ("id".toList, "0".toList), ("shell".toList, "/bin/bash".toList)])]),
          [useradd_command "alice".toList, adduser_command "alice".toList]) ∧
    rmdir [("root".toList, [("home".toList, "/root".toList),
            ("id".toList, "0".toList), ("shell".toList, "/bin/bash".toList)])]
        ("/".toList ++ "root".toList) 256
      = (- EIO, [("root".toList, [("home".toList, "/root".toList),
            ("id".toList, "0".toList), ("shell".toList, "/bin/bash".toList)])],
          [userdel_command "root".toList]) :=
  ⟨(tool_failure_atomic _ "/alice".toList 256 256 256 (some [])
      (by decide) (by decide) (by decide)).2.1 "alice".toList (by decide) (by decide),
   (tool_failure_atomic _ "/alice".toList 256 256 256 (some [])
      (by decide) (by decide) (by decide)).2.2.2.2 "root".toList (by decide) (by decide)⟩

/-- C9, the code at the failing input: on the empty snapshot, mkdir of the nested path
/alice/docs with a succeeding useradd is not rejected; it runs useradd for alice, rebuilds
the snapshot from the record source and returns 0.  With both tools failing it returns
-EIO after running them.  The sibling rmdir rejects the same path with -EPERM. -/
theorem mkdir_nested_path :
    mkdir [] "/alice/docs".toList 0 0
        (some ["alice:x:1000:1000::/home/alice:/bin/bash".toList])
      = (Except.ok (0, [("alice".toList, [("home".toList, "/home/alice".toList),
            ("id".toList, "1000".toList), ("shell".toList, "/bin/bash".toList)])]),
          ["useradd -m -s /bin/bash alice 2>/dev/null".toList]) ∧
    mkdir [] "/alice/docs".toList 256 256 (some [])
      = (Except.ok (- EIO, []),
          ["useradd -m -s /bin/bash alice 2>/dev/null".toList,
           "adduser --disabled-password --gecos '' alice 2>/dev/null".toList]) ∧
    rmdir [] "/alice/docs".toList 0 = (-EPERM, [], []) := by
  refine ⟨rfl, rfl, rfl⟩

/-- C10, the code at the failing input: on the snapshot that holds root, the path
/root/id/extra is scanned as user name root and file name id, the rest is not looked at;
getattr returns 0 and reports a regular file of size 1, read returns the one byte of the
id.  The sibling rmdir rejects the path with -EPERM. -/
theorem getattr_read_deeper_path :
    getattr ⟨1700000000, 0, 0⟩ [("root".toList, [("home".toList, "/root".toList),
            ("id".toList, "0".toList), ("shell".toList, "/bin/bash".toList)])]
        "/root/id/extra".toList
      = (0, ⟨S_IFREG ||| 0o644, 0, 0, 1, 1700000000, 1700000000, 1700000000⟩,
          [("root".toList, [("home".toList, "/root".toList),
            ("id".toList, "0".toList), ("shell".toList, "/bin/bash".toList)])]) ∧
    read [("root".toList, [("home".toList, "/root".toList),
            ("id".toList, "0".toList), ("shell".toList, "/bin/bash".toList)])]
        "/root/id/extra".toList 4096 0
      = (1, "0".toList, [("root".toList, [("home".toList, "/root".toList),
            ("id".toList, "0".toList), ("shell".toList, "/bin/bash".toList)])]) ∧
    rmdir [("root".toList, [("home".toList, "/root".toList),
            ("id".toList, "0".toList), ("shell".toList, "/bin/bash".toList)])]
        "/root/id/extra".toList 0
      = (-EPERM, [("root".toList, [("home".toList, "/root".toList),
            ("id".toList, "0".toList), ("shell".toList, "/bin/bash".toList)])], []) := by
  refine ⟨rfl, rfl, rfl⟩

/-- std::stoi on a decimal number: a non-empty run of digits whose value fits an int is
converted to that value. -/
theorem stoi_digits (ds : Str) (hne : ds ≠ []) (hd : ∀ c ∈ ds, isdigit c = true)
    (hr : digits_value 0 ds ≤ 2147483647) :
    stoi ds = Except.ok (digits_value 0 ds : Int) := by
  obtain ⟨c, rest, rfl⟩ := List.exists_cons_of_ne_nil hne
  have hc := hd c (List.mem_cons_self _ _)
  have hc' : '0' ≤ c ∧ c ≤ '9' := by simpa [isdigit] using hc
  have h0 : (48 : Nat) ≤ c.toNat := by
    have := hc'.1
    rw [Char.le_def] at this
    exact this
  have h9 : c.toNat ≤ 57 := by
    have := hc'.2
    rw [Char.le_def] at this
    exact this
  have hsp : isspace c = false := by
    have hne32 : c ≠ ' ' := by
      intro e
      rw [e] at h0
      exact absurd h0 (by decide)
    simp only [isspace, decide_eq_false_iff_not, not_or, not_and, not_le]
    exact ⟨hne32, fun _ => by omega⟩
  have hminus : c ≠ '-' := by
    intro e
    rw [e] at h0
    exact absurd h0 (by decide)
  have hplus : c ≠ '+' := by
    intro e
    rw [e] at h0
    exact absurd h0 (by decide)
  have htw : (c :: rest).takeWhile isdigit = c :: rest :=
    List.takeWhile_eq_self_iff.mpr hd
  unfold stoi
  simp only [List.dropWhile, hsp, if_neg hminus, if_neg hplus, htw]
  have h1 : ¬ ((digits_value 0 (c :: rest) : Int) < -(2 ^ 31) ∨
      2 ^ 31 - 1 < (digits_value 0 (c :: rest) : Int)) := by
    omega
  simp only [List.cons_ne_nil, if_false, Bool.false_eq_true]
  rw [if_neg h1]

/-! ## Several records of one user name -/

theorem last_included_cons (line : Str) (rest : List Str) (u : Str) :
    last_included (line :: rest) u =
      match last_included rest u with
      | some r => some r
      | none =>
        match parse_record line with
        | some r => if included r = true ∧ r.username = u then some r else none
        | none => none := by
  unfold last_included parsed_records
  cases hp : parse_record line with
  | none =>
    rw [List.filterMap_cons_none hp]
    cases List.find? _ _ <;> rfl
  | some r =>
    rw [List.filterMap_cons_some hp, List.reverse_cons, List.find?_append]
    cases List.find? _ (List.filterMap parse_record rest).reverse with
    | some r' => rfl
    | none =>
      by_cases h : included r = true ∧ r.username = u
      · simp [List.find?, h.1, h.2]
      · simp only [Option.none_or, if_neg h]
        have : (included r && decide (r.username = u)) = false := by
          simpa [Bool.and_eq_false_iff] using h
        simp [List.find?, this]

theorem sync_step_find_eq (m : Snapshot) (line : Str) (u : Str) :
    StdMap.find? (sync_step m line) u =
      match parse_record line with
      | some r =>
        if included r = true ∧ r.username = u then some (record_attrs r)
        else StdMap.find? m u
      | none => StdMap.find? m u := by
  unfold sync_step
  cases parse_record line with
  | none => rfl
  | some r =>
    simp only
    by_cases hi : included r = true
    · by_cases hu : r.username = u
      · rw [if_pos hi, if_pos ⟨hi, hu⟩, ← hu, find_insert_same]
      · rw [if_pos hi, if_neg (fun h => hu h.2),
          find_insert_other _ _ _ _ (fun e => hu e.symm)]
    · rw [if_neg hi, if_neg (fun h => hi h.1)]

/-- The loop of the rebuild, on lines whose uid fields std::stoi converts: the entry of a
user name at the end is the attribute map of its most recent included record, or the
entry it had before when it has no included record. -/
theorem sync_lines_find (lines : List Str)
    (hnum : ∀ l ∈ lines, ∀ r, parse_record l = some r → ∃ n, stoi r.uid = Except.ok n) :
    ∀ m : Snapshot, three_attrs m →
      ∃ snap, sync_lines m lines = Except.ok snap ∧
        ∀ u, StdMap.find? snap u =
          match last_included lines u with
          | some r => some (record_attrs r)
          | none => StdMap.find? m u := by
  induction lines with
  | nil =>
    intro m _
    exact ⟨m, rfl, fun u => rfl⟩
  | cons line rest ih =>
    intro m hm
    have hline := sync_line_eq m hm line (hnum line (List.mem_cons_self _ _))
    obtain ⟨snap, hsnap, hfind⟩ :=
      ih (fun l hl => hnum l (List.mem_cons_of_mem _ hl)) (sync_step m line)
        (sync_step_three_attrs m hm line)
    refine ⟨snap, ?_, ?_⟩
    · simp only [sync_lines, hline]
      exact hsnap
    · intro u
      rw [hfind u, last_included_cons, sync_step_find_eq]
      cases last_included rest u with
      | some r => rfl
      | none =>
        cases parse_record line with
        | none => rfl
        | some r =>
          simp only
          split <;> rfl

theorem find_strengthen {α : Type} (l : List α) (p q : α → Bool)
    (hq : ∀ x, q x = true → p x = true) (r : α)
    (h : l.find? p = some r) (hr : q r = true) : l.find? q = some r := by
  induction l with
  | nil => cases h
  | cons a rest ih =>
    rw [List.find?_cons] at h ⊢
    cases hpa : p a with
    | true =>
      rw [hpa] at h
      cases h
      rw [hr]
    | false =>
      rw [hpa] at h
      have hqa : q a = false := by
        cases hqa : q a with
        | false => rfl
        | true => rw [hq a hqa] at hpa; cases hpa
      rw [hqa]
      exact ih h

theorem last_included_of_last_record (lines : List Str) (u : Str) (r : Record)
    (h : last_record lines u = some r) (hr : included r = true) :
    last_included lines u = some r := by
  unfold last_record at h
  unfold last_included
  have hu : r.username = u := by
    have := List.find?_some h
    simpa using this
  apply find_strengthen _ _ _ _ r h
  · simp [hr, hu]
  · intro x hx
    simp only [Bool.and_eq_true, decide_eq_true_eq] at hx
    simpa using hx.2

theorem last_included_isSome (lines : List Str) (u : Str) :
    (last_included lines u).isSome = true ↔
      ∃ r ∈ parsed_records lines, included r = true ∧ r.username = u := by
  unfold last_included
  rw [List.find?_isSome]
  constructor
  · rintro ⟨r, hr, hq⟩
    simp only [Bool.and_eq_true, decide_eq_true_eq] at hq
    exact ⟨r, List.mem_reverse.mp hr, hq⟩
  · rintro ⟨r, hr, hq⟩
    refine ⟨r, List.mem_reverse.mpr hr, ?_⟩
    simp only [Bool.and_eq_true, decide_eq_true_eq]
    exact hq

/-- C11 (amended): after a rebuild from lines whose uid fields std::stoi converts, with
any number of lines for one user name, the entry of a user name is the attribute map of
its most recent record that passes the inclusion test (uid 0 or at least 1000, shell
neither /bin/false nor /usr/sbin/nologin), and it has no entry when none of its records
passes.  So a user name is a key exactly when some record of it passes; when its most
recent record passes it is a key and is mapped to that record. -/
theorem sync_with_passwd_membership (lines : List Str)
    (hnum : ∀ l ∈ lines, ∀ r, parse_record l = some r → ∃ n, stoi r.uid = Except.ok n) :
    ∃ snap : Snapshot,
      (∀ previous : Snapshot, sync_with_passwd previous (some lines) = Except.ok snap) ∧
      (∀ u, StdMap.find? snap u = (last_included lines u).map record_attrs) ∧
      (∀ u, u ∈ StdMap.keys snap ↔
        ∃ r ∈ parsed_records lines, included r = true ∧ r.username = u) ∧
      (∀ u r, last_record lines u = some r → included r = true →
        u ∈ StdMap.keys snap ∧ StdMap.find? snap u = some (record_attrs r)) := by
  have hempty : three_attrs ([] : Snapshot) := fun e he => by cases he
  obtain ⟨snap, hsnap, hfind⟩ := sync_lines_find lines hnum [] hempty
  have hfind' : ∀ u, StdMap.find? snap u = (last_included lines u).map record_attrs := by
    intro u
    rw [hfind u]
    cases last_included lines u <;> rfl
  have hkeys : ∀ u, u ∈ StdMap.keys snap ↔
      ∃ r ∈ parsed_records lines, included r = true ∧ r.username = u := by
    intro u
    rw [← find_isSome_iff_mem_keys, hfind' u, Option.isSome_map', last_included_isSome]
  refine ⟨snap, fun _ => hsnap, hfind', hkeys, ?_⟩
  intro u r hlast hinc
  have hli := last_included_of_last_record lines u r hlast hinc
  have hf : StdMap.find? snap u = some (record_attrs r) := by
    rw [hfind' u, hli]; rfl
  refine ⟨?_, hf⟩
  rw [← find_isSome_iff_mem_keys, hf]; rfl

/-- Witness of sync_with_passwd_membership: two lines for bob, the first with the shell
/usr/sbin/nologin and the second, which passes, with /bin/bash. -/
theorem sync_with_passwd_membership_witness :
    ∃ snap : Snapshot,
      (∀ previous : Snapshot,
        sync_with_passwd previous (some ["bob:x:1000:1000::/home/bob:/usr/sbin/nologin".toList,
          "bob:x:1000:1000::/home/bob:/bin/bash".toList]) = Except.ok snap) ∧
      (∀ u, StdMap.find? snap u
        = (last_included ["bob:x:1000:1000::/home/bob:/usr/sbin/nologin".toList,
            "bob:x:1000:1000::/home/bob:/bin/bash".toList] u).map record_attrs) ∧
      (∀ u, u ∈ StdMap.keys snap ↔
        ∃ r ∈ parsed_records ["bob:x:1000:1000::/home/bob:/usr/sbin/nologin".toList,
            "bob:x:1000:1000::/home/bob:/bin/bash".toList],
          included r = true ∧ r.username = u) ∧
      (∀ u r, last_record ["bob:x:1000:1000::/home/bob:/usr/sbin/nologin".toList,
            "bob:x:1000:1000::/home/bob:/bin/bash".toList] u = some r →
        included r = true →
        u ∈ StdMap.keys snap ∧ StdMap.find? snap u = some (record_attrs r)) :=
  sync_with_passwd_membership
    ["bob:x:1000:1000::/home/bob:/usr/sbin/nologin".toList,
      "bob:x:1000:1000::/home/bob:/bin/bash".toList]
    (by
      intro l hl r hr
      rcases List.mem_cons.mp hl with h | h
      · subst h
        have hp : parse_record "bob:x:1000:1000::/home/bob:/usr/sbin/nologin".toList
            = some ⟨"bob".toList, "1000".toList, "/home/bob".toList,
                "/usr/sbin/nologin".toList⟩ := rfl
        rw [hp] at hr
        cases hr
        exact ⟨1000, rfl⟩
      · rcases List.mem_cons.mp h with h | h
        · subst h
          have hp : parse_record "bob:x:1000:1000::/home/bob:/bin/bash".toList
              = some ⟨"bob".toList, "1000".toList, "/home/bob".toList,
                  "/bin/bash".toList⟩ := rfl
          rw [hp] at hr
          cases hr
          exact ⟨1000, rfl⟩
        · cases h)

/-- C11 fails as stated: of the two lines for bob the first, with the shell /bin/bash,
passes the inclusion test and the second, the most recent, with /usr/sbin/nologin, does
not.  The rebuild stores the first and nothing removes it, so bob is a key of the
snapshot, with the attributes of the first line. -/
theorem sync_with_passwd_membership_counterexample :
    sync_with_passwd [] (some ["bob:x:1000:1000::/home/bob:/bin/bash".toList,
          "bob:x:1000:1000::/home/bob:/usr/sbin/nologin".toList])
        = Except.ok [("bob".toList, [("home".toList, "/home/bob".toList),
            ("id".toList, "1000".toList), ("shell".toList, "/bin/bash".toList)])] ∧
      last_record ["bob:x:1000:1000::/home/bob:/bin/bash".toList,
          "bob:x:1000:1000::/home/bob:/usr/sbin/nologin".toList] "bob".toList
        = some ⟨"bob".toList, "1000".toList, "/home/bob".toList,
            "/usr/sbin/nologin".toList⟩ ∧
      included ⟨"bob".toList, "1000".toList, "/home/bob".toList,
            "/usr/sbin/nologin".toList⟩ = false ∧
      "bob".toList ∈ StdMap.keys ([("bob".toList, [("home".toList, "/home/bob".toList),
            ("id".toList, "1000".toList), ("shell".toList, "/bin/bash".toList)])] : Snapshot) := by
  refine ⟨rfl, by decide, by decide, by decide⟩

/-! ## The invariant of the snapshot -/

theorem find_of_count_ne_zero {V : Type} (m : StdMap V) (k : Str)
    (h : StdMap.count m k ≠ 0) : ∃ v, StdMap.find? m k = some v := by
  unfold StdMap.count at h
  cases hf : StdMap.find? m k with
  | some v => exact ⟨v, rfl⟩
  | none => rw [hf] at h; exact absurd rfl h

theorem find_attr_of_keys (inner : Attrs) (filename : Str)
    (hk : StdMap.keys inner = ["home".toList, "id".toList, "shell".toList])
    (hf : filename = "id".toList ∨ filename = "home".toList ∨ filename = "shell".toList) :
    ∃ v, StdMap.find? inner filename = some v := by
  obtain ⟨h, i, s, rfl⟩ := attrs_of_keys inner _ _ _ hk
  rcases hf with e | e | e <;> subst e
  · exact ⟨i, rfl⟩
  · exact ⟨h, rfl⟩
  · exact ⟨s, rfl⟩

/-- On a snapshot whose accounts have their three attributes, the subscripts of getattr
find what they look up: getattr leaves the snapshot as it was, for every path. -/
theorem getattr_keeps_snapshot (env : Env) (s : Snapshot) (path : Str) (hs : three_attrs s) :
    (getattr env s path).2.2 = s := by
  unfold getattr
  simp only
  split
  · rfl
  · generalize sscanf_user_file (c_str path) = p
    obtain ⟨n2, username, filename⟩ := p
    simp only
    split
    · split
      · rename_i hg
        obtain ⟨inner, hinner⟩ := find_of_count_ne_zero s username hg.1
        obtain ⟨v, hv⟩ := find_attr_of_keys inner filename
          (hs _ (mem_of_find s _ _ hinner)) hg.2
        simp only [subscript2, hinner, hv]
      · rfl
    · generalize sscanf_user (c_str path) = q
      obtain ⟨n1, username1⟩ := q
      simp only
      split
      · split <;> rfl
      · rfl

/-- The subscripts of read come after the two count tests: read leaves every snapshot as
it was, for every path, size and offset. -/
theorem read_keeps_snapshot (s : Snapshot) (path : Str) (size : Nat) (offset : Int) :
    (read s path size offset).2.2 = s := by
  unfold read
  simp only
  generalize sscanf_user_file (c_str path) = p
  obtain ⟨n, username, filename⟩ := p
  simp only
  split
  · rfl
  · split
    · rfl
    · rename_i hc
      obtain ⟨inner, hinner⟩ := find_of_count_ne_zero s username hc
      simp only [StdMap.subscript, hinner]
      split
      · rfl
      · rename_i hc2
        obtain ⟨v, hv⟩ := find_of_count_ne_zero inner filename hc2
        simp only [subscript2, hinner, hv]
        split <;> rfl

theorem three_attrs_erase (s : Snapshot) (k : Str) (hs : three_attrs s) :
    three_attrs (StdMap.erase s k) := by
  intro e he
  unfold StdMap.erase at he
  exact hs e (List.mem_of_mem_filter he)

theorem rmdir_snapshot (s : Snapshot) (path : Str) (userdel_status : Int) :
    (rmdir s path userdel_status).2.1 = s ∨
      ∃ username, (rmdir s path userdel_status).2.1 = StdMap.erase s username := by
  unfold rmdir
  simp only
  generalize sscanf_user (c_str path) = p
  obtain ⟨n, username⟩ := p
  simp only
  split
  · split
    · split
      · exact Or.inl rfl
      · split
        · exact Or.inr ⟨username, rfl⟩
        · exact Or.inl rfl
    · exact Or.inl rfl
  · exact Or.inl rfl

theorem mkdir_snapshot (s s' : Snapshot) (path : Str) (useradd_status adduser_status : Int)
    (passwd_file : Option (List Str)) (ret : Int)
    (h : (mkdir s path useradd_status adduser_status passwd_file).1 = Except.ok (ret, s')) :
    s' = s ∨ sync_with_passwd s passwd_file = Except.ok s' := by
  unfold mkdir at h
  simp only at h
  generalize sscanf_user (c_str path) = p at h
  obtain ⟨n, username⟩ := p
  simp only at h
  by_cases hn : n = 1
  · rw [if_pos hn] at h
    by_cases hc : StdMap.count s username ≠ 0
    · rw [if_pos hc] at h
      cases h; exact Or.inl rfl
    · rw [if_neg hc] at h
      generalize (if useradd_status ≠ 0 then
          (adduser_status, [useradd_command username, adduser_command username])
        else (useradd_status, [useradd_command username])) = run at h
      by_cases hr : run.1 = 0
      · rw [if_pos hr] at h
        cases hs : sync_with_passwd s passwd_file with
        | error e =>
          rw [hs] at h
          cases h
        | ok d =>
          rw [hs] at h
          cases h
          exact Or.inr rfl
      · rw [if_neg hr] at h
        cases h; exact Or.inl rfl
  · rw [if_neg hn] at h
    cases h; exact Or.inl rfl

theorem sync_line_ok (m m' : Snapshot) (line : Str) (hm : three_attrs m)
    (h : sync_line m line = Except.ok m') : m' = sync_step m line := by
  have hnum : ∀ r, parse_record line = some r → ∃ n, stoi r.uid = Except.ok n := by
    intro r hr
    cases hs : stoi r.uid with
    | ok n => exact ⟨n, rfl⟩
    | error e =>
      exfalso
      unfold sync_line at h
      unfold parse_record at hr
      split at hr
      · rename_i username f1 uid f3 f4 home shell tl heq
        cases hr
        simp only [heq] at h
        simp only at hs
        rw [hs] at h
        cases h
      · cases hr
  rw [sync_line_eq m hm line hnum] at h
  cases h
  rfl

theorem sync_lines_ok (lines : List Str) :
    ∀ m s' : Snapshot, three_attrs m → StdMap.WF m → sync_lines m lines = Except.ok s' →
      three_attrs s' ∧ StdMap.WF s' := by
  induction lines with
  | nil =>
    intro m s' hm hwf h
    cases h
    exact ⟨hm, hwf⟩
  | cons line rest ih =>
    intro m s' hm hwf h
    unfold sync_lines at h
    split at h
    · cases h
    · rename_i d hd
      have := sync_line_ok m d line hm hd
      subst this
      exact ih _ s' (sync_step_three_attrs m hm line) (sync_step_wf m hwf line) h

theorem sync_with_passwd_ok (s s' : Snapshot) (passwd_file : Option (List Str))
    (h : sync_with_passwd s passwd_file = Except.ok s') : three_attrs s' ∧ StdMap.WF s' := by
  have hempty : three_attrs ([] : Snapshot) := fun e he => by cases he
  have hwf : StdMap.WF ([] : Snapshot) := by
    unfold StdMap.WF StdMap.keys; exact List.Pairwise.nil
  unfold sync_with_passwd at h
  cases passwd_file with
  | none =>
    cases h
    exact ⟨hempty, hwf⟩
  | some lines => exact sync_lines_ok lines [] s' hempty hwf h

/-- C12: every snapshot reachable from the empty one by calls of sync_with_passwd, getattr,
readdir, read, mkdir and rmdir, with any paths, record sources and tool statuses, maps
each user name to exactly the attributes home, id and shell (its attribute map has these
three keys, in key order, and nothing else) and keeps its user names in key order.  On
such a snapshot getattr and read, whose subscripts could create entries, create none:
they leave the snapshot as it was for every path. -/
theorem reachable_three_attrs (s : Snapshot) (h : Reachable s) :
    three_attrs s ∧ StdMap.WF s ∧
      (∀ u attrs, StdMap.find? s u = some attrs →
        ∃ x y z, attrs = [("home".toList, x), ("id".toList, y), ("shell".toList, z)]) ∧
      (∀ env path, (getattr env s path).2.2 = s) ∧
      (∀ path size offset, (read s path size offset).2.2 = s) := by
  have key : three_attrs s ∧ StdMap.WF s := by
    induction h with
    | init =>
      refine ⟨fun e he => (by cases he), ?_⟩
      unfold StdMap.WF StdMap.keys
      exact List.Pairwise.nil
    | step_rebuild s s' passwd_file _ hsync _ => exact sync_with_passwd_ok s s' passwd_file hsync
    | step_getattr s env path _ ih =>
      rw [getattr_keeps_snapshot env s path ih.1]
      exact ih
    | step_readdir s path ret names _ _ ih => exact ih
    | step_read s path size offset _ ih =>
      rw [read_keeps_snapshot]
      exact ih
    | step_mkdir s s' path useradd_status adduser_status passwd_file ret _ hmk ih =>
      rcases mkdir_snapshot s s' path useradd_status adduser_status passwd_file ret hmk
        with h1 | h1
      · rw [h1]; exact ih
      · exact sync_with_passwd_ok s s' passwd_file h1
    | step_rmdir s path userdel_status _ ih =>
      rcases rmdir_snapshot s path userdel_status with h1 | ⟨username, h1⟩
      · rw [h1]; exact ih
      · rw [h1]
        exact ⟨three_attrs_erase s username ih.1, wf_erase s username ih.2⟩
  refine ⟨key.1, key.2, ?_, ?_, ?_⟩
  · intro u attrs hf
    exact attrs_of_keys attrs _ _ _ (key.1 _ (mem_of_find s u attrs hf))
  · intro env path
    exact getattr_keeps_snapshot env s path key.1
  · intro path size offset
    exact read_keeps_snapshot s path size offset

/-- Witness of reachable_three_attrs: the snapshot that holds root, reached by a rebuild
from the lines of alice and root followed by a successful rmdir of /alice. -/
theorem reachable_three_attrs_witness :
    Reachable [("root".toList, [("home".toList, "/root".toList),
        ("id".toList, "0".toList), ("shell".toList, "/bin/bash".toList)])] ∧
    (three_attrs [("root".toList, [("home".toList, "/root".toList),
        ("id".toList, "0".toList), ("shell".toList, "/bin/bash".toList)])] ∧
      StdMap.WF ([("root".toList, [("home".toList, "/root".toList),
        ("id".toList, "0".toList), ("shell".toList, "/bin/bash".toList)])] : Snapshot) ∧
      (∀ u attrs, StdMap.find? ([("root".toList, [("home".toList, "/root".toList),
          ("id".toList, "0".toList), ("shell".toList, "/bin/bash".toList)])] : Snapshot) u
          = some attrs →
        ∃ x y z, attrs = [("home".toList, x), ("id".toList, y), ("shell".toList, z)]) ∧
      (∀ env path, (getattr env [("root".toList, [("home".toList, "/root".toList),
          ("id".toList, "0".toList), ("shell".toList, "/bin/bash".toList)])] path).2.2
        = [("root".toList, [("home".toList, "/root".toList),
          ("id".toList, "0".toList), ("shell".toList, "/bin/bash".toList)])]) ∧
      (∀ path size offset, (read [("root".toList, [("home".toList, "/root".toList),
          ("id".toList, "0".toList), ("shell".toList, "/bin/bash".toList)])]
          path size offset).2.2
        = [("root".toList, [("home".toList, "/root".toList),
          ("id".toList, "0".toList), ("shell".toList, "/bin/bash".toList)])])) :=
  have h1 : Reachable [("alice".toList, [("home".toList, "/home/alice".toList),
        ("id".toList, "1000".toList), ("shell".toList, "/bin/sh".toList)]),
      ("root".toList, [("home".toList, "/root".toList),
        ("id".toList, "0".toList), ("shell".toList, "/bin/bash".toList)])] :=
    Reachable.step_rebuild [] _
      (some ["root:x:0:0:root:/root:/bin/bash".toList,
        "alice:x:1000:1000::/home/alice:/bin/sh".toList]) Reachable.init rfl
  have h2 : Reachable [("root".toList, [("home".toList, "/root".toList),
        ("id".toList, "0".toList), ("shell".toList, "/bin/bash".toList)])] :=
    Reachable.step_rmdir _ "/alice".toList 0 h1
  ⟨h2, reachable_three_attrs _ h2⟩

end VirtualFileSystem
